import Mathlib

/-!
Verification of the YOLOv6 efficient decoupled distillation detection head
(`yolov6/models/heads/effidehead_distill_ns.py`).

Tensors are modelled shallowly: a rank-n tensor is a record of its n dimension
sizes together with a total indexing function into the real numbers (reads
outside the declared bounds return unspecified junk, as the proofs only ever
constrain in-bounds entries).  PyTorch's `flatten`, `permute`, `reshape` and
`cat` become explicit index-arithmetic transforms; fallible operations
(`IndexError`, broadcasting failures) return `Option`.
-/

set_option autoImplicit false

namespace EffiDeHead

/-- A 4-D tensor, semantically `(d0, d1, d2, d3)` with row-major layout. -/
structure Tensor4 where
  d0 : Nat
  d1 : Nat
  d2 : Nat
  d3 : Nat
  data : Nat → Nat → Nat → Nat → ℝ

/-- A 3-D tensor. -/
structure Tensor3 where
  d0 : Nat
  d1 : Nat
  d2 : Nat
  data : Nat → Nat → Nat → ℝ

/-- A 2-D tensor. -/
structure Tensor2 where
  d0 : Nat
  d1 : Nat
  data : Nat → Nat → ℝ

instance : Inhabited Tensor4 := ⟨⟨0, 0, 0, 0, fun _ _ _ _ => 0⟩⟩

instance : Inhabited Tensor3 := ⟨⟨0, 0, 0, fun _ _ _ => 0⟩⟩

instance : Inhabited Tensor2 := ⟨⟨0, 0, fun _ _ => 0⟩⟩

/-- `t.flatten(2)`: collapse the last two axes of a `(b, c, h, w)` tensor into
one axis of length `h*w`, row-major (`k = r*w + c`). -/
def Tensor4.flatten2 (t : Tensor4) : Tensor3 :=
  ⟨t.d0, t.d1, t.d2 * t.d3, fun i j k => t.data i j (k / t.d3) (k % t.d3)⟩

/-- `t.permute((0, 2, 1))` on a 3-D tensor. -/
def Tensor3.permute021 (t : Tensor3) : Tensor3 :=
  ⟨t.d0, t.d2, t.d1, fun i j k => t.data i k j⟩

/-- `t.permute(0, 2, 3, 1)` on a 4-D tensor: `(b, c, h, w) ↦ (b, h, w, c)`. -/
def Tensor4.permute0231 (t : Tensor4) : Tensor4 :=
  ⟨t.d0, t.d2, t.d3, t.d1, fun i j k l => t.data i l j k⟩

/-- Lookup helper for `torch.cat(ts, axis=1)` on 3-D tensors: walk the blocks
along axis 1 until the index falls inside one of them. -/
def catAxis1Data : List Tensor3 → Nat → Nat → Nat → ℝ
  | [], _, _, _ => 0
  | t :: ts, i, j, k => if j < t.d1 then t.data i j k else catAxis1Data ts i (j - t.d1) k

/-- `torch.cat(ts, axis=1)` on 3-D tensors (the training-mode concatenation
across scales along the anchor axis). -/
def catAxis1 (ts : List Tensor3) : Tensor3 :=
  { d0 := (ts.map Tensor3.d0).headD 0
    d1 := (ts.map Tensor3.d1).sum
    d2 := (ts.map Tensor3.d2).headD 0
    data := catAxis1Data ts }

/-- Lookup helper for `torch.cat(ts, dim=-1)` on 4-D tensors. -/
def catLastData : List Tensor4 → Nat → Nat → Nat → Nat → ℝ
  | [], _, _, _, _ => 0
  | t :: ts, i, j, k, l => if l < t.d3 then t.data i j k l else catLastData ts i j k (l - t.d3)

/-- `torch.cat(ts, dim=-1)` on 4-D tensors (the inference-mode per-scale
channel concatenation). -/
def catLast (ts : List Tensor4) : Tensor4 :=
  { d0 := (ts.map Tensor4.d0).headD 0
    d1 := (ts.map Tensor4.d1).headD 0
    d2 := (ts.map Tensor4.d2).headD 0
    d3 := (ts.map Tensor4.d3).sum
    data := catLastData ts }

/-- Read a 4-D tensor at a flat row-major offset, as `reshape` does. -/
def Tensor4.flatRead (t : Tensor4) (n : Nat) : ℝ :=
  t.data (n / (t.d1 * t.d2 * t.d3)) (n / (t.d2 * t.d3) % t.d1) (n / t.d3 % t.d2) (n % t.d3)

/-- `t.reshape(-1, 4)`: regroup the flat row-major contents into rows of 4. -/
def Tensor4.reshapeNeg1x4 (t : Tensor4) : Tensor2 :=
  ⟨t.d0 * t.d1 * t.d2 * t.d3 / 4, 4, fun n j => t.flatRead (4 * n + j)⟩

/-- `t.reshape(b, h, w, 4)` applied to a 2-D tensor of row length 4. -/
def Tensor2.reshapeTo4 (t : Tensor2) (b h w : Nat) : Tensor4 :=
  ⟨b, h, w, 4, fun i r c l => t.data ((((i * h + r) * w + c) * 4 + l) / t.d1)
                                     ((((i * h + r) * w + c) * 4 + l) % t.d1)⟩

/-- Apply a scalar function pointwise to a 4-D tensor (e.g. `torch.sigmoid`). -/
def Tensor4.mapData (f : ℝ → ℝ) (t : Tensor4) : Tensor4 :=
  ⟨t.d0, t.d1, t.d2, t.d3, fun i j k l => f (t.data i j k l)⟩

/-- `t *= s`: in-place scalar multiplication, modelled functionally. -/
noncomputable def Tensor4.scalarMul (t : Tensor4) (s : ℝ) : Tensor4 :=
  ⟨t.d0, t.d1, t.d2, t.d3, fun i j k l => t.data i j k l * s⟩

/-- `torch.ones((b, h, w, c))`. -/
def onesT4 (b h w c : Nat) : Tensor4 := ⟨b, h, w, c, fun _ _ _ _ => 1⟩

/-- `torch.sigmoid` on a single scalar: `1 / (1 + exp (-x))`. -/
noncomputable def sigmoid (x : ℝ) : ℝ := 1 / (1 + Real.exp (-x))

/-- An externally injected feature-transform module (stem / conv branch /
prediction projection): a tensor-to-tensor map together with its declared
output channel count.  The spec's collaborator contract (§6) requires it to
map `(b, cin, h, w)` to `(b, outCh, h, w)`; that is the `ShapeOk` predicate. -/
structure TModule where
  outCh : Nat
  f : Tensor4 → Tensor4

instance : Inhabited TModule := ⟨⟨0, id⟩⟩

/-- The collaborator shape contract: batch and spatial sizes preserved, channel
axis set to the declared output channel count. -/
def TModule.ShapeOk (m : TModule) : Prop :=
  ∀ t : Tensor4, (m.f t).d0 = t.d0 ∧ (m.f t).d1 = m.outCh ∧
    (m.f t).d2 = t.d2 ∧ (m.f t).d3 = t.d3

/-- The constructed state of the `Detect` head (`Detect.__init__`'s fields that
the forward pass reads). -/
structure Detect where
  nc : Nat
  no : Nat
  nl : Nat
  prior_prob : ℝ
  stride : List ℝ
  use_dfl : Bool
  reg_max : Nat
  grid_cell_offset : ℝ
  grid_cell_size : ℝ
  stems : List TModule
  cls_convs : List TModule
  reg_convs : List TModule
  cls_preds : List TModule
  reg_preds_dist : List TModule
  reg_preds : List TModule

/-- `Detect.__init__`.  Mirrors the source: asserts `head_layers is not None`,
fixes `stride = [8, 16, 32]` (hardcoded, never compared against
`num_layers`), and for each `i < num_layers` reads the six modules
`head_layers[6*i .. 6*i+5]` into the per-scale slots
(stem, cls_conv, reg_conv, cls_pred, reg_pred_dist, reg_pred) in that order.
A read past the end of `head_layers` is a Python `IndexError`, modelled as
`none`. -/
noncomputable def Detect.init (num_classes num_layers : Nat)
    (head_layers : Option (List TModule)) (use_dfl : Bool) (reg_max : Nat) :
    Option Detect :=
  head_layers.bind fun hl =>
    if num_layers ≤ 0 ∨ 6 * num_layers ≤ hl.length then
      some
        { nc := num_classes
          no := num_classes + 5
          nl := num_layers
          prior_prob := 1 / 100
          stride := [8, 16, 32]
          use_dfl := use_dfl
          reg_max := reg_max
          grid_cell_offset := 1 / 2
          grid_cell_size := 5
          stems := (List.range num_layers).map fun i => hl.getD (6 * i) default
          cls_convs := (List.range num_layers).map fun i => hl.getD (6 * i + 1) default
          reg_convs := (List.range num_layers).map fun i => hl.getD (6 * i + 2) default
          cls_preds := (List.range num_layers).map fun i => hl.getD (6 * i + 3) default
          reg_preds_dist := (List.range num_layers).map fun i => hl.getD (6 * i + 4) default
          reg_preds := (List.range num_layers).map fun i => hl.getD (6 * i + 5) default }
    else none


/-- The anchor points of one scale with spatial size `(h, w)`: row-major over
cells `(r, c)`, each centred at `(c + offset, r + offset)` in that scale's
feature-map pixel units. -/
noncomputable def anchorsForScale (h w : Nat) (offset : ℝ) : List (ℝ × ℝ) :=
  (List.range h).flatMap fun r : Nat =>
    (List.range w).map fun c : Nat => ((c : ℝ) + offset, (r : ℝ) + offset)

/-- Modelled from the spec: `generate_anchors`
(`yolov6/assigners/anchor_generator.py`, not included under `src/`), in the
eval anchor-free mode used by the head (`is_eval=True, mode='af'`).  Given the
feature maps' spatial sizes and the per-scale strides it returns the flat,
scale-major then row-major, list of anchor centre points `(c+o, r+o)` and the
parallel flat list holding each scale's stride repeated `h*w` times; it fails
when the stride list length differs from the number of feature maps or some
feature map has zero spatial extent (spec §4.1 error conditions). -/
noncomputable def generate_anchors (shapes : List (Nat × Nat)) (strides : List ℝ)
    (offset : ℝ) : Option (List (ℝ × ℝ) × List ℝ) :=
  if shapes.length = strides.length ∧ ∀ p ∈ shapes, 0 < p.1 * p.2 then
    some ((shapes.map fun p => anchorsForScale p.1 p.2 offset).flatten,
      ((shapes.zip strides).map fun ps => List.replicate (ps.1.1 * ps.1.2) ps.2).flatten)
  else none

/-- One decoded `xywh` box coordinate (spec §4.2): from distances
`(l, t, r, b)` at anchor `a`, the corners are
`x1 = a.x - l, y1 = a.y - t, x2 = a.x + r, y2 = a.y + b` and the output is
`(centre_x, centre_y, width, height)` with `centre = (min+max)/2`,
`size = max - min`. -/
noncomputable def decodeXYWH (a : ℝ × ℝ) (dist : Nat → ℝ) : Nat → ℝ := fun j =>
  if j = 0 then ((a.1 - dist 0) + (a.1 + dist 2)) / 2
  else if j = 1 then ((a.2 - dist 1) + (a.2 + dist 3)) / 2
  else if j = 2 then (a.1 + dist 2) - (a.1 - dist 0)
  else ((a.2 + dist 3) - (a.2 - dist 1))

/-- Modelled from the spec: `dist2bbox` (`yolov6/utils/general.py`, not
included under `src/`), in the `xywh` box format.  The spec's contract (§4.2)
pairs `N` 4-channel distance rows with `N` matching anchor points; the tensor
engine additionally broadcasts a single anchor row across all distance rows.
Any other length combination is a broadcasting shape error, modelled as
`none`. -/
noncomputable def dist2bbox (distance : Tensor2) (anchors : List (ℝ × ℝ)) :
    Option Tensor2 :=
  if anchors.length = distance.d0 then
    some ⟨distance.d0, 4, fun n j => decodeXYWH (anchors.getD n (0, 0)) (distance.data n) j⟩
  else if anchors.length = 1 then
    some ⟨distance.d0, 4, fun n j => decodeXYWH (anchors.getD 0 (0, 0)) (distance.data n) j⟩
  else none

/-- The body of the training-mode loop for one scale `i` (source lines 85–98):
`x[i] = stems[i](x[i])`, both branches fed from the stem output, sigmoid on the
classification logits, and each raw map flattened over space and permuted to
`(batch, anchors, channels)`.  Returns the stem output (which overwrites
`x[i]`) and the three per-scale tensors appended to the lists. -/
noncomputable def trainScale (d : Detect) (i : Nat) (xi : Tensor4) :
    Tensor4 × Tensor3 × Tensor3 × Tensor3 :=
  let xi' := (d.stems.getD i default).f xi
  let cls_feat := (d.cls_convs.getD i default).f xi'
  let cls_output := (d.cls_preds.getD i default).f cls_feat
  let reg_feat := (d.reg_convs.getD i default).f xi'
  let reg_output := (d.reg_preds_dist.getD i default).f reg_feat
  let reg_output_lrtb := (d.reg_preds.getD i default).f reg_feat
  let cls_sig := cls_output.mapData sigmoid
  (xi', cls_sig.flatten2.permute021, reg_output.flatten2.permute021,
    reg_output_lrtb.flatten2.permute021)

/-- The caller's feature-map list after the training loop's in-place writes
`x[i] = stems[i](x[i])`: slots `0 .. nl-1` hold the stem outputs, the rest are
untouched. -/
noncomputable def mutatedList (d : Detect) (x : List Tensor4) : List Tensor4 :=
  ((List.range d.nl).map fun i => ((trainScale d i (x.getD i default)).1)) ++ x.drop d.nl

/-- Training-mode `forward` (source lines 80–104).  Each iteration `i` of the
loop reads only slot `i` (its original value) and overwrites it, so the loop is
the independent per-scale map `trainScale`; the three lists are concatenated
along axis 1 and the (mutated) feature-map list is returned first.  Reading
`x[i]` past the end of the list is a Python `IndexError`, modelled as
`none`. -/
noncomputable def Detect.forwardTrain (d : Detect) (x : List Tensor4) :
    Option (List Tensor4 × Tensor3 × Tensor3 × Tensor3) :=
  if d.nl ≤ x.length then
    let per := (List.range d.nl).map fun i => trainScale d i (x.getD i default)
    some (mutatedList d x,
      catAxis1 (per.map fun p => p.2.1),
      catAxis1 (per.map fun p => p.2.2.1),
      catAxis1 (per.map fun p => p.2.2.2))
  else none

/-- The body of the inference loop for one scale `i` with running start index
`start` (source lines 117–159): stem feeds both branches, sigmoid on the
classification logits, both heads permuted to `(b, h, w, c)`, the anchor-point
and stride sequences sliced as `[start : start + h*w]`, `dist2bbox` decoding in
`xywh` format on the rows of `reg_output.reshape(-1, 4)`, the reshape back to
`(b, h, w, 4)`, the in-place `*= scale_stride[0]`, and the channel-axis
concatenation `[boxes, ones, cls]`. -/
noncomputable def inferScale (d : Detect) (ap : List (ℝ × ℝ)) (st : List ℝ)
    (i start : Nat) (xi : Tensor4) : Option Tensor4 := do
  let b := xi.d0
  let h := xi.d2
  let w := xi.d3
  let feat := (d.stems.getD i default).f xi
  let cls_feat := (d.cls_convs.getD i default).f feat
  let reg_feat := (d.reg_convs.getD i default).f feat
  let cls_out0 := (d.cls_preds.getD i default).f cls_feat
  let reg_out0 := (d.reg_preds.getD i default).f reg_feat
  let cls_output := (cls_out0.mapData sigmoid).permute0231
  let reg_output := reg_out0.permute0231
  let scale_anchor_points := (ap.drop start).take (h * w)
  let scale_stride := (st.drop start).take (h * w)
  let pred ← dist2bbox reg_output.reshapeNeg1x4 scale_anchor_points
  let pred_bboxes := (pred.reshapeTo4 b h w).scalarMul (scale_stride.headD 0)
  pure (catLast [pred_bboxes, onesT4 b h w 1, cls_output])

/-- The inference loop over the remaining scale indices, threading the running
slice start index exactly as the source does: it starts at the given `start`
and advances by `h*w` after every scale. -/
noncomputable def inferLoop (d : Detect) (ap : List (ℝ × ℝ)) (st : List ℝ)
    (x : List Tensor4) : List Nat → Nat → Option (List Tensor4)
  | [], _ => some []
  | i :: rest, start => do
    let xi ← x.get? i
    let out ← inferScale d ap st i start xi
    let outs ← inferLoop d ap st x rest (start + xi.d2 * xi.d3)
    pure (out :: outs)

/-- Inference-mode `forward` (source lines 105–161): generate the anchor set
once for all scales, then run the per-scale loop with the running start index
beginning at 0, returning the ordered per-scale output list. -/
noncomputable def Detect.forwardInfer (d : Detect) (x : List Tensor4) :
    Option (List Tensor4) := do
  let (anchor_points, stride_tensor) ←
    generate_anchors (x.map fun t => (t.d2, t.d3)) d.stride d.grid_cell_offset
  inferLoop d anchor_points stride_tensor x (List.range d.nl) 0

/-- The value `forward` returns: the training tuple (feature-map list plus the
three concatenated tensors) or the inference list of per-scale records. -/
inductive ForwardOut where
  | train : List Tensor4 → Tensor3 → Tensor3 → Tensor3 → ForwardOut
  | infer : List Tensor4 → ForwardOut

/-- `Detect.forward`, with the caller-visible state of the input list made
explicit: the result pairs the feature-map list as the caller sees it after the
call (mutated in training mode by `x[i] = stems[i](x[i])`, untouched in
inference mode) with the returned value.  In training mode the first element of
the returned tuple is the very list object the caller passed in, i.e. the
mutated list itself. -/
noncomputable def Detect.forward (d : Detect) (training : Bool)
    (x : List Tensor4) : Option (List Tensor4 × ForwardOut) :=
  if training then
    (d.forwardTrain x).map fun r => (r.1, ForwardOut.train r.1 r.2.1 r.2.2.1 r.2.2.2)
  else
    (d.forwardInfer x).map fun outs => (x, ForwardOut.infer outs)

/-- The closed-form running start index: `blockStart x i` is the sum of
`h_j * w_j` over the scales before `i`. -/
def blockStart (x : List Tensor4) (i : Nat) : Nat :=
  ((x.take i).map fun t => t.d2 * t.d3).sum

/-- The raw classification logits for scale `i`: classification projection
after classification feature transform after stem (the same composition in
both forward modes). -/
noncomputable def clsLogits (d : Detect) (i : Nat) (xi : Tensor4) : Tensor4 :=
  (d.cls_preds.getD i default).f
    ((d.cls_convs.getD i default).f ((d.stems.getD i default).f xi))

/-- The raw distribution-form regression output for scale `i` (training path
only). -/
noncomputable def regDistLogits (d : Detect) (i : Nat) (xi : Tensor4) : Tensor4 :=
  (d.reg_preds_dist.getD i default).f
    ((d.reg_convs.getD i default).f ((d.stems.getD i default).f xi))

/-- The raw direct (left/top/right/bottom) regression output for scale `i`
(both forward modes). -/
noncomputable def regLrtbLogits (d : Detect) (i : Nat) (xi : Tensor4) : Tensor4 :=
  (d.reg_preds.getD i default).f
    ((d.reg_convs.getD i default).f ((d.stems.getD i default).f xi))

/-- The learnable parameters of one 1×1 prediction convolution, as
`initialize_biases` touches them: the flat weight and bias value lists and
their `requires_grad` marks. -/
structure ConvParams where
  weight : List ℝ
  bias : List ℝ
  weight_requires_grad : Bool
  bias_requires_grad : Bool

/-- `torch.linspace(s, e, steps)`: `steps` values, the `i`-th being
`s + i * (e - s) / (steps - 1)` (a single step returns `[s]`; division by zero
in ℝ yields 0, matching that case). -/
noncomputable def linspace (s e : ℝ) (steps : Nat) : List ℝ :=
  (List.range steps).map fun i : Nat => s + (i : ℝ) * (e - s) / ((steps : ℝ) - 1)

/-- The parameter-level state of the head that `initialize_biases` reads and
writes: the three lists of prediction-projection convolutions, the projection
convolution's weight, and the `proj` ramp attribute the call creates. -/
structure DetectParams where
  reg_max : Nat
  prior_prob : ℝ
  cls_preds : List ConvParams
  reg_preds_dist : List ConvParams
  reg_preds : List ConvParams
  proj_conv_weight : List ℝ
  proj_conv_weight_requires_grad : Bool
  proj : List ℝ
  proj_requires_grad : Bool

/-- `tensor.fill_(v)`: overwrite every entry, keeping the length. -/
def fillConst (v : ℝ) (l : List ℝ) : List ℝ := l.map fun _ => v

/-- `Detect.initialize_biases` (source lines 49–77): every
classification-projection bias entry is filled with
`-log((1 - prior_prob) / prior_prob)`, every bias entry of both regression
projections with `1.0`, all three projection weight tensors with `0.`
(all four remaining `requires_grad=True`); then `self.proj` is created as
`torch.linspace(0, reg_max, reg_max + 1)` with `requires_grad=False` and
`proj_conv.weight` is replaced by a reshaped clone of that ramp, also with
`requires_grad=False`. -/
noncomputable def initialize_biases (d : DetectParams) : DetectParams :=
  { d with
    cls_preds := d.cls_preds.map fun c =>
      { weight := fillConst 0 c.weight
        bias := fillConst (-Real.log ((1 - d.prior_prob) / d.prior_prob)) c.bias
        weight_requires_grad := true
        bias_requires_grad := true }
    reg_preds_dist := d.reg_preds_dist.map fun c =>
      { weight := fillConst 0 c.weight
        bias := fillConst 1 c.bias
        weight_requires_grad := true
        bias_requires_grad := true }
    reg_preds := d.reg_preds.map fun c =>
      { weight := fillConst 0 c.weight
        bias := fillConst 1 c.bias
        weight_requires_grad := true
        bias_requires_grad := true }
    proj := linspace 0 (d.reg_max : ℝ) (d.reg_max + 1)
    proj_requires_grad := false
    proj_conv_weight := linspace 0 (d.reg_max : ℝ) (d.reg_max + 1)
    proj_conv_weight_requires_grad := false }

/-- The construction-time description of one sub-module built by
`build_effidehead_layer`: its declared input/output channel counts and kernel
size (`ConvBNSiLU` blocks and `nn.Conv2d` projections alike). -/
structure LayerSpec where
  inCh : Nat
  outCh : Nat
  kernel : Nat

instance : Inhabited LayerSpec := ⟨⟨0, 0, 0⟩⟩

/-- `build_effidehead_layer` (source lines 164–284): the flat 18-entry sequence
of per-scale layer groups, six per scale, reading the stem/branch widths from
`channels_list` at indices 6, 8 and 10 (given here as a total index function).
Note the distribution-form regression projection is built with
`4 * (reg_max + num_anchors)` output channels, the classification projection
with `num_classes * num_anchors` and the direct regression projection with
`4 * num_anchors`. -/
def build_effidehead_layer (channels_list : Nat → Nat)
    (num_anchors num_classes : Nat) (reg_max : Nat) : List LayerSpec :=
  [ ⟨channels_list 6, channels_list 6, 1⟩,
    ⟨channels_list 6, channels_list 6, 3⟩,
    ⟨channels_list 6, channels_list 6, 3⟩,
    ⟨channels_list 6, num_classes * num_anchors, 1⟩,
    ⟨channels_list 6, 4 * (reg_max + num_anchors), 1⟩,
    ⟨channels_list 6, 4 * num_anchors, 1⟩,
    ⟨channels_list 8, channels_list 8, 1⟩,
    ⟨channels_list 8, channels_list 8, 3⟩,
    ⟨channels_list 8, channels_list 8, 3⟩,
    ⟨channels_list 8, num_classes * num_anchors, 1⟩,
    ⟨channels_list 8, 4 * (reg_max + num_anchors), 1⟩,
    ⟨channels_list 8, 4 * num_anchors, 1⟩,
    ⟨channels_list 10, channels_list 10, 1⟩,
    ⟨channels_list 10, channels_list 10, 3⟩,
    ⟨channels_list 10, channels_list 10, 3⟩,
    ⟨channels_list 10, num_classes * num_anchors, 1⟩,
    ⟨channels_list 10, 4 * (reg_max + num_anchors), 1⟩,
    ⟨channels_list 10, 4 * num_anchors, 1⟩ ]

/-- A concrete collaborator module for witnesses: declares `c` output channels
and maps any input to a zero tensor with `c` channels and the input's batch and
spatial sizes (so it satisfies the collaborator shape contract). -/
def constModule (c : Nat) : TModule :=
  ⟨c, fun t => ⟨t.d0, c, t.d2, t.d3, fun _ _ _ _ => 0⟩⟩

/-- A concrete input feature map for witnesses. -/
def inputT (b ch h w : Nat) : Tensor4 := ⟨b, ch, h, w, fun _ _ _ _ => 0⟩

/-- One scale's group of six head layers for witnesses, in the order
`Detect.__init__` consumes them. -/
def testGroup (nc rm : Nat) : List TModule :=
  [constModule 8, constModule 8, constModule 8,
    constModule nc, constModule (4 * (rm + 1)), constModule 4]

/-- A concrete constructed head for witnesses: three scales with the standard
channel contract (`nc` classification channels, `4*(reg_max+1)` distribution
channels, 4 direct regression channels). -/
noncomputable def testDetect (nc rm : Nat) : Detect :=
  { nc := nc
    no := nc + 5
    nl := 3
    prior_prob := 1 / 100
    stride := [8, 16, 32]
    use_dfl := true
    reg_max := rm
    grid_cell_offset := 1 / 2
    grid_cell_size := 5
    stems := List.replicate 3 (constModule 8)
    cls_convs := List.replicate 3 (constModule 8)
    reg_convs := List.replicate 3 (constModule 8)
    cls_preds := List.replicate 3 (constModule nc)
    reg_preds_dist := List.replicate 3 (constModule (4 * (rm + 1)))
    reg_preds := List.replicate 3 (constModule 4) }

/-- A concrete three-scale input (batch 1, feature maps 4×4, 2×2, 1×1) for
witnesses. -/
def testInput : List Tensor4 := [inputT 1 8 4 4, inputT 1 8 2 2, inputT 1 8 1 1]

/-- Concrete parameters for the `initialize_biases` witness. -/
noncomputable def testParams : DetectParams :=
  { reg_max := 16
    prior_prob := 1 / 100
    cls_preds := [⟨[3, 4], [5], true, true⟩]
    reg_preds_dist := [⟨[6], [7], true, true⟩]
    reg_preds := [⟨[8], [9], true, true⟩]
    proj_conv_weight := []
    proj_conv_weight_requires_grad := true
    proj := []
    proj_requires_grad := true }

section Lemmas

/-- `testDetect` is what `Detect.__init__` builds from three copies of the
standard layer group. -/
lemma testDetect_from_init (nc rm : Nat) :
    Detect.init nc 3 (some (testGroup nc rm ++ testGroup nc rm ++ testGroup nc rm))
      true rm = some (testDetect nc rm) := rfl

/-- The concrete module respects the collaborator shape contract. -/
lemma constModule_shapeOk (c : Nat) : (constModule c).ShapeOk :=
  fun _ => ⟨rfl, rfl, rfl, rfl⟩

/-- Reading an in-range position of a mapped range list. -/
lemma getD_map_range {α : Type} (f : Nat → α) (n i : Nat) (hi : i < n) (d : α) :
    ((List.range n).map f).getD i d = f i := by
  rw [List.getD_eq_getElem?_getD, List.getElem?_map, List.getElem?_range hi]
  rfl

/-- Range of the sigmoid: every value lies in `[0, 1]`. -/
lemma sigmoid_mem_Icc (x : ℝ) : 0 ≤ sigmoid x ∧ sigmoid x ≤ 1 := by
  have hpos : (0 : ℝ) < Real.exp (-x) := Real.exp_pos (-x)
  have hd : (0 : ℝ) < 1 + Real.exp (-x) := by linarith
  constructor
  · exact div_nonneg zero_le_one hd.le
  · rw [sigmoid, div_le_one hd]
    linarith

/-- An in-range `get?` read returns the `getD` value. -/
lemma get?_eq_some_getD {α : Type} (l : List α) (d : α) {i : Nat} (hi : i < l.length) :
    l.get? i = some (l.getD i d) := by
  rw [List.get?_eq_getElem?, List.getElem?_eq_getElem hi, List.getD_eq_getElem?_getD,
    List.getElem?_eq_getElem hi]
  rfl

/-- In-range `getD` is `getElem`. -/
lemma getD_eq_getElem {α : Type} (l : List α) (d : α) {i : Nat} (hi : i < l.length) :
    l.getD i d = l[i] := by
  rw [List.getD_eq_getElem?_getD, List.getElem?_eq_getElem hi]
  rfl

lemma blockStart_zero (x : List Tensor4) : blockStart x 0 = 0 := rfl

/-- `blockStart` as a prefix sum of the per-scale block length list. -/
lemma blockStart_eq_take_sum (x : List Tensor4) (i : Nat) :
    blockStart x i = ((x.map fun t => t.d2 * t.d3).take i).sum := by
  unfold blockStart
  rw [List.map_take]

/-- Reading an in-range position of a mapped list via `getD`. -/
lemma getD_map_eq {α β : Type} (f : α → β) (l : List α) (db : β) (da : α)
    {i : Nat} (hi : i < l.length) :
    (l.map f).getD i db = f (l.getD i da) := by
  rw [List.getD_eq_getElem?_getD, List.getElem?_map, List.getElem?_eq_getElem hi,
    getD_eq_getElem l da hi]
  rfl

/-- The running start index advances by `h_i * w_i` from scale `i` to `i+1`. -/
lemma blockStart_succ (x : List Tensor4) {i : Nat} (hi : i < x.length) :
    blockStart x (i + 1)
      = blockStart x i + (x.getD i default).d2 * (x.getD i default).d3 := by
  have hi' : i < (x.map fun t => t.d2 * t.d3).length := by
    rw [List.length_map]; exact hi
  rw [blockStart_eq_take_sum, blockStart_eq_take_sum, List.take_succ,
    List.getElem?_eq_getElem hi', List.sum_append, List.getElem_map,
    getD_eq_getElem x default hi]
  simp

/-- The start index after the last scale is the total anchor count. -/
lemma blockStart_length (x : List Tensor4) :
    blockStart x x.length = (x.map fun t => t.d2 * t.d3).sum := by
  unfold blockStart
  rw [List.take_length]

/-- Prefix sums of block lengths transfer along a computed length list. -/
lemma prefix_sum_eq {α : Type} (ls : List (List α)) (ns : List Nat)
    (h : ls.map List.length = ns) (i : Nat) :
    ((ls.take i).map List.length).sum = (ns.take i).sum := by
  rw [List.map_take, h]

/-- Slicing a flattened list of blocks at a block boundary, for the block's
length, recovers exactly that block. -/
lemma flatten_block_slice {α : Type} :
    ∀ (ls : List (List α)) (i : Nat), i < ls.length →
      (ls.flatten.drop (((ls.take i).map List.length).sum)).take (ls.getD i []).length
        = ls.getD i [] := by
  intro ls
  induction ls with
  | nil => intro i hi; exact absurd hi (Nat.not_lt_zero i)
  | cons hd tl ih =>
    intro i hi
    cases i with
    | zero =>
      simp only [List.take_zero, List.map_nil, List.sum_nil, List.drop_zero,
        List.flatten_cons, List.getD_cons_zero]
      exact List.take_left hd tl.flatten
    | succ j =>
      have hj : j < tl.length := by simpa using hi
      simp only [List.take_succ_cons, List.map_cons, List.sum_cons, List.flatten_cons,
        List.getD_cons_succ]
      rw [List.drop_append]
      exact ih j hj

/-- Each scale contributes `h * w` anchor points. -/
lemma length_anchorsForScale (h w : Nat) (o : ℝ) :
    (anchorsForScale h w o).length = h * w := by
  unfold anchorsForScale
  rw [List.flatMap_def, List.length_flatten, List.map_map]
  have hconst : ((List.range h).map (List.length ∘ fun r : Nat =>
      (List.range w).map fun c : Nat => ((c : ℝ) + o, (r : ℝ) + o)))
      = (List.range h).map fun _ => w :=
    List.map_congr_left fun r _ => by
      simp [Function.comp]
  rw [hconst, List.map_const', List.sum_const_nat, List.length_range]

/-- The per-scale anchor block lengths of the generated anchor set. -/
lemma ap_block_lengths (x : List Tensor4) (o : ℝ) :
    (((x.map fun t => (t.d2, t.d3)).map fun p => anchorsForScale p.1 p.2 o).map
        List.length) = x.map fun t => t.d2 * t.d3 := by
  rw [List.map_map, List.map_map]
  exact List.map_congr_left fun t _ => length_anchorsForScale t.d2 t.d3 o

/-- The per-scale stride block lengths of the generated stride sequence. -/
lemma st_block_lengths (x : List Tensor4) (strides : List ℝ)
    (hlen : (x.map fun t => (t.d2, t.d3)).length = strides.length) :
    ((((x.map fun t => (t.d2, t.d3)).zip strides).map fun ps =>
        List.replicate (ps.1.1 * ps.1.2) ps.2).map List.length)
      = x.map fun t => t.d2 * t.d3 := by
  rw [List.map_map]
  have h1 : (List.length ∘ fun ps : (Nat × Nat) × ℝ =>
      List.replicate (ps.1.1 * ps.1.2) ps.2)
      = fun ps : (Nat × Nat) × ℝ => ps.1.1 * ps.1.2 := by
    funext ps
    exact List.length_replicate _ _
  rw [h1]
  have h2 : (((x.map fun t => (t.d2, t.d3)).zip strides).map fun ps => ps.1.1 * ps.1.2)
      = (((x.map fun t => (t.d2, t.d3)).zip strides).map Prod.fst).map fun p =>
          p.1 * p.2 := by
    rw [List.map_map]
    exact List.map_congr_left fun ps _ => rfl
  rw [h2, List.map_fst_zip _ _ (le_of_eq hlen), List.map_map]
  exact List.map_congr_left fun t _ => rfl

/-- Destructuring a successful anchor generation. -/
lemma generate_anchors_eq_some {shapes : List (Nat × Nat)} {strides : List ℝ}
    {o : ℝ} {ap : List (ℝ × ℝ)} {st : List ℝ}
    (h : generate_anchors shapes strides o = some (ap, st)) :
    shapes.length = strides.length ∧ (∀ p ∈ shapes, 0 < p.1 * p.2)
    ∧ ap = (shapes.map fun p => anchorsForScale p.1 p.2 o).flatten
    ∧ st = ((shapes.zip strides).map fun ps =>
        List.replicate (ps.1.1 * ps.1.2) ps.2).flatten := by
  unfold generate_anchors at h
  split_ifs at h with hc
  injection h with h'
  rw [Prod.mk.injEq] at h'
  exact ⟨hc.1, hc.2, h'.1.symm, h'.2.symm⟩

/-- The anchor-point slice the inference loop takes for scale `i` is exactly
that scale's anchor block. -/
lemma ap_slice (x : List Tensor4) (o : ℝ) {i : Nat} (hi : i < x.length) :
    ((((x.map fun t => (t.d2, t.d3)).map fun p =>
          anchorsForScale p.1 p.2 o).flatten.drop (blockStart x i)).take
        ((x.getD i default).d2 * (x.getD i default).d3))
      = anchorsForScale (x.getD i default).d2 (x.getD i default).d3 o := by
  have hilen : i < ((x.map fun t => (t.d2, t.d3)).map fun p =>
      anchorsForScale p.1 p.2 o).length := by
    rw [List.length_map, List.length_map]; exact hi
  have hi' : i < (x.map fun t => (t.d2, t.d3)).length := by
    rw [List.length_map]; exact hi
  have hblock : ((x.map fun t => (t.d2, t.d3)).map fun p =>
        anchorsForScale p.1 p.2 o).getD i []
      = anchorsForScale (x.getD i default).d2 (x.getD i default).d3 o := by
    rw [getD_map_eq _ _ [] ((0 : Nat), (0 : Nat)) hi',
      getD_map_eq _ _ ((0 : Nat), (0 : Nat)) default hi]
  have hpre : ((((x.map fun t => (t.d2, t.d3)).map fun p =>
        anchorsForScale p.1 p.2 o).take i).map List.length).sum = blockStart x i := by
    rw [prefix_sum_eq _ _ (ap_block_lengths x o) i, ← blockStart_eq_take_sum]
  have main := flatten_block_slice
    ((x.map fun t => (t.d2, t.d3)).map fun p => anchorsForScale p.1 p.2 o) i hilen
  rw [hpre, hblock, length_anchorsForScale] at main
  exact main

/-- The stride slice the inference loop takes for scale `i` is that scale's
stride value repeated `h_i * w_i` times. -/
lemma st_slice (x : List Tensor4) (strides : List ℝ) {i : Nat}
    (hi : i < x.length) (hlen : x.length = strides.length) :
    (((((x.map fun t => (t.d2, t.d3)).zip strides).map fun ps =>
          List.replicate (ps.1.1 * ps.1.2) ps.2).flatten.drop (blockStart x i)).take
        ((x.getD i default).d2 * (x.getD i default).d3))
      = List.replicate ((x.getD i default).d2 * (x.getD i default).d3)
          (strides.getD i 0) := by
  have hmaplen : (x.map fun t => (t.d2, t.d3)).length = strides.length := by
    rw [List.length_map]; exact hlen
  have hziplen : i < ((x.map fun t => (t.d2, t.d3)).zip strides).length := by
    rw [List.length_zip, List.length_map]
    omega
  have hilen : i < (((x.map fun t => (t.d2, t.d3)).zip strides).map fun ps =>
      List.replicate (ps.1.1 * ps.1.2) ps.2).length := by
    rw [List.length_map]; exact hziplen
  have hist : i < strides.length := by omega
  have hi' : i < (x.map fun t => (t.d2, t.d3)).length := by
    rw [List.length_map]; exact hi
  have hblock : (((x.map fun t => (t.d2, t.d3)).zip strides).map fun ps =>
        List.replicate (ps.1.1 * ps.1.2) ps.2).getD i []
      = List.replicate ((x.getD i default).d2 * (x.getD i default).d3)
          (strides.getD i 0) := by
    rw [getD_map_eq _ _ [] (((0 : Nat), (0 : Nat)), (0 : ℝ)) hziplen]
    have hzip : ((x.map fun t => (t.d2, t.d3)).zip strides).getD i
        (((0 : Nat), (0 : Nat)), (0 : ℝ))
        = (((x.getD i default).d2, (x.getD i default).d3),
            strides.getD i 0) := by
      rw [getD_eq_getElem _ _ hziplen, List.getElem_zip, List.getElem_map,
        getD_eq_getElem x default hi, getD_eq_getElem strides 0 hist]
    rw [hzip]
  have hpre : (((((x.map fun t => (t.d2, t.d3)).zip strides).map fun ps =>
        List.replicate (ps.1.1 * ps.1.2) ps.2).take i).map List.length).sum
      = blockStart x i := by
    rw [prefix_sum_eq _ _ (st_block_lengths x strides hmaplen) i,
      ← blockStart_eq_take_sum]
  have main := flatten_block_slice
    (((x.map fun t => (t.d2, t.d3)).zip strides).map fun ps =>
      List.replicate (ps.1.1 * ps.1.2) ps.2) i hilen
  rw [hpre, hblock, List.length_replicate] at main
  exact main

/-- The inference loop with running start index `blockStart x a` computes, for
each remaining scale `i`, exactly the per-scale step at start index
`blockStart x i`: the sequential threading of `start` coincides with the
closed-form prefix sums. -/
lemma inferLoop_eq_mapM (d : Detect) (ap : List (ℝ × ℝ)) (st : List ℝ)
    (x : List Tensor4) :
    ∀ (n a : Nat), a + n ≤ x.length →
      inferLoop d ap st x (List.range' a n) (blockStart x a)
        = (List.range' a n).mapM fun i =>
            inferScale d ap st i (blockStart x i) (x.getD i default) := by
  intro n
  induction n with
  | zero => intro a _; rfl
  | succ m ih =>
    intro a ha
    have hal : a < x.length := by omega
    have hstep : blockStart x a + (x.getD a default).d2 * (x.getD a default).d3
        = blockStart x (a + 1) := (blockStart_succ x hal).symm
    rw [List.range'_succ]
    simp only [inferLoop, List.mapM_cons, get?_eq_some_getD x default hal,
      Option.bind_eq_bind, Option.some_bind, Option.pure_def]
    rw [hstep, ih (a + 1) (by omega)]

/-- Reading inside `torch.cat(ts, axis=1)` at an offset that falls in block
`i`: the lookup walks past the first `i` blocks and lands at position `k` of
block `i`. -/
lemma catAxis1Data_block : ∀ (ts : List Tensor3) (i : Nat), i < ts.length →
    ∀ k, k < (ts.getD i default).d1 → ∀ bb c,
      catAxis1Data ts bb (((ts.take i).map Tensor3.d1).sum + k) c
        = (ts.getD i default).data bb k c := by
  intro ts
  induction ts with
  | nil => intro i hi; exact absurd hi (Nat.not_lt_zero i)
  | cons hd tl ih =>
    intro i hi k hk bb c
    cases i with
    | zero =>
      simp only [List.getD_cons_zero] at hk ⊢
      simp only [List.take_zero, List.map_nil, List.sum_nil, Nat.zero_add]
      simp only [catAxis1Data]
      rw [if_pos hk]
    | succ j =>
      have hj : j < tl.length := by simpa using hi
      simp only [List.getD_cons_succ] at hk ⊢
      simp only [List.take_succ_cons, List.map_cons, List.sum_cons]
      simp only [catAxis1Data]
      rw [if_neg (by omega)]
      have harith : hd.d1 + ((tl.take j).map Tensor3.d1).sum + k - hd.d1
          = ((tl.take j).map Tensor3.d1).sum + k := by omega
      rw [harith]
      exact ih j hj k hk bb c

/-- The sum of per-scale `h*w` over the first `n` scales is `blockStart`. -/
lemma blockStart_eq_range_sum (x : List Tensor4) :
    ∀ {n : Nat}, n ≤ x.length →
      ((List.range n).map fun i =>
        (x.getD i default).d2 * (x.getD i default).d3).sum = blockStart x n := by
  intro n
  induction n with
  | zero => intro _; rfl
  | succ m ih =>
    intro hn
    rw [List.range_succ, List.map_append, List.sum_append, ih (by omega),
      blockStart_succ x (by omega)]
    simp

/-- Head of a mapped range list. -/
lemma headD_map_range {α : Type} (f : Nat → α) {n : Nat} (hn : 0 < n) (d : α) :
    ((List.range n).map f).headD d = f 0 := by
  cases n with
  | zero => omega
  | succ m =>
    rw [List.range_eq_range', List.range'_succ]
    rfl

/-- Shapes of the three per-scale training outputs, under the collaborator
shape contract: each is `(batch, h*w, outCh)` after the flatten/permute. -/
lemma trainScale_dims (d : Detect) (i : Nat) (xi : Tensor4)
    (hstem : (d.stems.getD i default).ShapeOk)
    (hclsc : (d.cls_convs.getD i default).ShapeOk)
    (hregc : (d.reg_convs.getD i default).ShapeOk)
    (hcls : (d.cls_preds.getD i default).ShapeOk)
    (hdist : (d.reg_preds_dist.getD i default).ShapeOk)
    (hreg : (d.reg_preds.getD i default).ShapeOk) :
    ((trainScale d i xi).2.1.d0 = xi.d0
      ∧ (trainScale d i xi).2.1.d1 = xi.d2 * xi.d3
      ∧ (trainScale d i xi).2.1.d2 = (d.cls_preds.getD i default).outCh)
    ∧ ((trainScale d i xi).2.2.1.d0 = xi.d0
      ∧ (trainScale d i xi).2.2.1.d1 = xi.d2 * xi.d3
      ∧ (trainScale d i xi).2.2.1.d2 = (d.reg_preds_dist.getD i default).outCh)
    ∧ ((trainScale d i xi).2.2.2.d0 = xi.d0
      ∧ (trainScale d i xi).2.2.2.d1 = xi.d2 * xi.d3
      ∧ (trainScale d i xi).2.2.2.d2 = (d.reg_preds.getD i default).outCh) := by
  obtain ⟨s0, s1, s2, s3⟩ := hstem xi
  obtain ⟨c0, c1, c2, c3⟩ := hclsc ((d.stems.getD i default).f xi)
  obtain ⟨p0, p1, p2, p3⟩ :=
    hcls ((d.cls_convs.getD i default).f ((d.stems.getD i default).f xi))
  obtain ⟨r0, r1, r2, r3⟩ := hregc ((d.stems.getD i default).f xi)
  obtain ⟨q0, q1, q2, q3⟩ :=
    hdist ((d.reg_convs.getD i default).f ((d.stems.getD i default).f xi))
  obtain ⟨u0, u1, u2, u3⟩ :=
    hreg ((d.reg_convs.getD i default).f ((d.stems.getD i default).f xi))
  refine ⟨⟨?_, ?_, ?_⟩, ⟨?_, ?_, ?_⟩, ⟨?_, ?_, ?_⟩⟩
  · show ((d.cls_preds.getD i default).f ((d.cls_convs.getD i default).f
      ((d.stems.getD i default).f xi))).d0 = xi.d0
    rw [p0, c0, s0]
  · show ((d.cls_preds.getD i default).f ((d.cls_convs.getD i default).f
        ((d.stems.getD i default).f xi))).d2
      * ((d.cls_preds.getD i default).f ((d.cls_convs.getD i default).f
        ((d.stems.getD i default).f xi))).d3 = xi.d2 * xi.d3
    rw [p2, c2, s2, p3, c3, s3]
  · show ((d.cls_preds.getD i default).f ((d.cls_convs.getD i default).f
      ((d.stems.getD i default).f xi))).d1 = (d.cls_preds.getD i default).outCh
    exact p1
  · show ((d.reg_preds_dist.getD i default).f ((d.reg_convs.getD i default).f
      ((d.stems.getD i default).f xi))).d0 = xi.d0
    rw [q0, r0, s0]
  · show ((d.reg_preds_dist.getD i default).f ((d.reg_convs.getD i default).f
        ((d.stems.getD i default).f xi))).d2
      * ((d.reg_preds_dist.getD i default).f ((d.reg_convs.getD i default).f
        ((d.stems.getD i default).f xi))).d3 = xi.d2 * xi.d3
    rw [q2, r2, s2, q3, r3, s3]
  · show ((d.reg_preds_dist.getD i default).f ((d.reg_convs.getD i default).f
        ((d.stems.getD i default).f xi))).d1
      = (d.reg_preds_dist.getD i default).outCh
    exact q1
  · show ((d.reg_preds.getD i default).f ((d.reg_convs.getD i default).f
      ((d.stems.getD i default).f xi))).d0 = xi.d0
    rw [u0, r0, s0]
  · show ((d.reg_preds.getD i default).f ((d.reg_convs.getD i default).f
        ((d.stems.getD i default).f xi))).d2
      * ((d.reg_preds.getD i default).f ((d.reg_convs.getD i default).f
        ((d.stems.getD i default).f xi))).d3 = xi.d2 * xi.d3
    rw [u2, r2, s2, u3, r3, s3]
  · show ((d.reg_preds.getD i default).f ((d.reg_convs.getD i default).f
      ((d.stems.getD i default).f xi))).d1 = (d.reg_preds.getD i default).outCh
    exact u1

/-- Dimensions and block structure of a `catAxis1` over per-scale tensors whose
block `i` has `h_i * w_i` rows: the concatenation has the common batch size,
`blockStart x nl` rows, the common channel count, and its row-block `i` is the
per-scale tensor `f i` in scale order. -/
lemma catAxis1_of_scales (d : Detect) (x : List Tensor4) (b C : Nat)
    (hnl : 0 < d.nl) (hxle : d.nl ≤ x.length) (f : Nat → Tensor3)
    (hd0 : ∀ i, i < d.nl → (f i).d0 = b)
    (hd1 : ∀ i, i < d.nl →
      (f i).d1 = (x.getD i default).d2 * (x.getD i default).d3)
    (hd2 : ∀ i, i < d.nl → (f i).d2 = C) :
    (catAxis1 ((List.range d.nl).map f)).d0 = b
    ∧ (catAxis1 ((List.range d.nl).map f)).d1 = blockStart x d.nl
    ∧ (catAxis1 ((List.range d.nl).map f)).d2 = C
    ∧ ∀ i, i < d.nl → ∀ k,
        k < (x.getD i default).d2 * (x.getD i default).d3 → ∀ bb c,
        (catAxis1 ((List.range d.nl).map f)).data bb (blockStart x i + k) c
          = (f i).data bb k c := by
  refine ⟨?_, ?_, ?_, ?_⟩
  · show ((((List.range d.nl).map f).map Tensor3.d0).headD 0) = b
    rw [List.map_map, headD_map_range _ hnl]
    exact hd0 0 hnl
  · show ((((List.range d.nl).map f).map Tensor3.d1).sum) = blockStart x d.nl
    rw [List.map_map]
    have hcong : (List.range d.nl).map (Tensor3.d1 ∘ f)
        = (List.range d.nl).map fun i =>
            (x.getD i default).d2 * (x.getD i default).d3 :=
      List.map_congr_left fun i hi => hd1 i (List.mem_range.mp hi)
    rw [hcong, blockStart_eq_range_sum x hxle]
  · show ((((List.range d.nl).map f).map Tensor3.d2).headD 0) = C
    rw [List.map_map, headD_map_range _ hnl]
    exact hd2 0 hnl
  · intro i hi k hk bb c
    have hilen : i < ((List.range d.nl).map f).length := by
      rw [List.length_map, List.length_range]; exact hi
    have hgetD : ((List.range d.nl).map f).getD i default = f i :=
      getD_map_range f d.nl i hi default
    have hk' : k < (((List.range d.nl).map f).getD i default).d1 := by
      rw [hgetD, hd1 i hi]; exact hk
    have hpre : ((((List.range d.nl).map f).take i).map Tensor3.d1).sum
        = blockStart x i := by
      rw [← List.map_take, List.take_range, Nat.min_eq_left (le_of_lt hi),
        List.map_map]
      have hcong : (List.range i).map (Tensor3.d1 ∘ f)
          = (List.range i).map fun j =>
              (x.getD j default).d2 * (x.getD j default).d3 :=
        List.map_congr_left fun j hj =>
          hd1 j (lt_of_lt_of_le (List.mem_range.mp hj) (le_of_lt hi))
      rw [hcong, blockStart_eq_range_sum x (by omega)]
    have hmain := catAxis1Data_block ((List.range d.nl).map f) i hilen k hk' bb c
    rw [hpre, hgetD] at hmain
    exact hmain

/-- `forwardTrain` under an adequate input list, with the per-scale map pushed
inside the three concatenations. -/
lemma forwardTrain_eq (d : Detect) (x : List Tensor4) (hx : d.nl ≤ x.length) :
    d.forwardTrain x = some (mutatedList d x,
      catAxis1 ((List.range d.nl).map fun i =>
        (trainScale d i (x.getD i default)).2.1),
      catAxis1 ((List.range d.nl).map fun i =>
        (trainScale d i (x.getD i default)).2.2.1),
      catAxis1 ((List.range d.nl).map fun i =>
        (trainScale d i (x.getD i default)).2.2.2)) := by
  unfold Detect.forwardTrain
  rw [if_pos hx]
  dsimp only
  rw [List.map_map, List.map_map, List.map_map]
  rfl

/-- Channel lookup in the per-scale record `cat([boxes, ones, cls], dim=-1)`:
channels `0..3` read the box tensor. -/
lemma catLast_three_box (pb ones cls : Tensor4) (hpb : pb.d3 = 4) {j : Nat}
    (hj : j < 4) (bb r c : Nat) :
    (catLast [pb, ones, cls]).data bb r c j = pb.data bb r c j := by
  show catLastData [pb, ones, cls] bb r c j = pb.data bb r c j
  simp only [catLastData]
  rw [if_pos (by omega)]

/-- Channel lookup in the per-scale record: channel 4 reads the objectness
placeholder tensor at its only channel. -/
lemma catLast_three_obj (pb ones cls : Tensor4) (hpb : pb.d3 = 4)
    (hones : ones.d3 = 1) (bb r c : Nat) :
    (catLast [pb, ones, cls]).data bb r c 4 = ones.data bb r c 0 := by
  show catLastData [pb, ones, cls] bb r c 4 = ones.data bb r c 0
  simp only [catLastData]
  rw [if_neg (by omega), if_pos (by omega)]
  rw [hpb]

/-- Channel lookup in the per-scale record: channel `5 + c'` (for
`c' < cls.d3`) reads classification channel `c'`. -/
lemma catLast_three_cls (pb ones cls : Tensor4) (hpb : pb.d3 = 4)
    (hones : ones.d3 = 1) {cp : Nat} (hcp : cp < cls.d3) (bb r c : Nat) :
    (catLast [pb, ones, cls]).data bb r c (5 + cp) = cls.data bb r c cp := by
  show catLastData [pb, ones, cls] bb r c (5 + cp) = cls.data bb r c cp
  simp only [catLastData]
  rw [if_neg (by omega), if_neg (by omega), if_pos (by omega)]
  have harith : 5 + cp - pb.d3 - ones.d3 = cp := by omega
  rw [harith]

/-- The inference per-scale step as a map over the fallible decode: it decodes
the rows of the permuted direct regression output against the anchor slice,
reshapes, multiplies by `scale_stride[0]`, and concatenates
`[boxes, ones, sigmoid cls]` along the channel axis. -/
lemma inferScale_eq (d : Detect) (ap : List (ℝ × ℝ)) (st : List ℝ)
    (i start : Nat) (xi : Tensor4) :
    inferScale d ap st i start xi
      = (dist2bbox ((regLrtbLogits d i xi).permute0231.reshapeNeg1x4)
          ((ap.drop start).take (xi.d2 * xi.d3))).map
          (fun pred => catLast
            [(pred.reshapeTo4 xi.d0 xi.d2 xi.d3).scalarMul
                (((st.drop start).take (xi.d2 * xi.d3)).headD 0),
              onesT4 xi.d0 xi.d2 xi.d3 1,
              ((clsLogits d i xi).mapData sigmoid).permute0231]) := by
  unfold inferScale regLrtbLogits clsLogits
  dsimp only
  cases h : dist2bbox (((d.reg_preds.getD i default).f
      ((d.reg_convs.getD i default).f
        ((d.stems.getD i default).f xi))).permute0231.reshapeNeg1x4)
      ((ap.drop start).take (xi.d2 * xi.d3)) with
  | none => rfl
  | some pred => rfl

/-- The head of a nonempty replicated list. -/
lemma headD_replicate {α : Type} (n : Nat) (a d : α) (hn : 0 < n) :
    (List.replicate n a).headD d = a := by
  cases n with
  | zero => omega
  | succ m => rw [List.replicate_succ]; rfl

/-- An in-range read of a replicated list. -/
lemma getD_replicate {α : Type} (n : Nat) (a d : α) {i : Nat} (hi : i < n) :
    (List.replicate n a).getD i d = a := by
  rw [getD_eq_getElem _ _ (by rw [List.length_replicate]; exact hi)]
  exact List.getElem_replicate a _

/-- Row-major position arithmetic: cell `(r, c)` of an `h × w` grid is an
in-range flat index. -/
lemma rowmajor_lt {r c h w : Nat} (hr : r < h) (hc : c < w) :
    r * w + c < h * w := by
  calc r * w + c < r * w + w := by omega
    _ = (r + 1) * w := by ring
    _ ≤ h * w := Nat.mul_le_mul_right _ (by omega)

/-- A successful `mapM` over `Option` succeeds pointwise, in order. -/
lemma mapM_eq_some {α β : Type} (f : α → Option β) :
    ∀ (l : List α) (ys : List β), l.mapM f = some ys →
      ys.length = l.length ∧ ∀ j, j < l.length → ∀ da db,
        f (l.getD j da) = some (ys.getD j db) := by
  intro l
  induction l with
  | nil =>
    intro ys h
    rw [List.mapM_nil] at h
    simp only [Option.pure_def] at h
    injection h with h'
    subst h'
    exact ⟨rfl, fun j hj => absurd hj (Nat.not_lt_zero j)⟩
  | cons a l ih =>
    intro ys h
    rw [List.mapM_cons] at h
    cases hfa : f a with
    | none => rw [hfa] at h; simp at h
    | some b =>
      rw [hfa] at h
      cases hml : l.mapM f with
      | none => rw [hml] at h; simp at h
      | some bs =>
        rw [hml] at h
        simp only [Option.bind_eq_bind, Option.some_bind, Option.pure_def] at h
        injection h with h'
        subst h'
        obtain ⟨hlen, hall⟩ := ih bs hml
        refine ⟨by simp [hlen], ?_⟩
        intro j hj da db
        cases j with
        | zero => simpa using hfa
        | succ j' =>
          have hj' : j' < l.length := by simpa using hj
          simpa using hall j' hj' da db

/-- In-range read of `range' 0 n`. -/
lemma getD_range' {n i : Nat} (hi : i < n) : (List.range' 0 n).getD i 0 = i := by
  rw [getD_eq_getElem _ _ (by rw [List.length_range']; exact hi)]
  simp

/-- Pointwise values of the three per-scale training outputs: classification
entries are the sigmoid of the raw classification logit at the corresponding
spatial cell, while both regression outputs carry the raw values with no
activation. -/
lemma trainScale_data (d : Detect) (i : Nat) (xi : Tensor4)
    (h3cls : (clsLogits d i xi).d3 = xi.d3)
    (h3dist : (regDistLogits d i xi).d3 = xi.d3)
    (h3reg : (regLrtbLogits d i xi).d3 = xi.d3) (bb k c : Nat) :
    (trainScale d i xi).2.1.data bb k c
        = sigmoid ((clsLogits d i xi).data bb c (k / xi.d3) (k % xi.d3))
    ∧ (trainScale d i xi).2.2.1.data bb k c
        = (regDistLogits d i xi).data bb c (k / xi.d3) (k % xi.d3)
    ∧ (trainScale d i xi).2.2.2.data bb k c
        = (regLrtbLogits d i xi).data bb c (k / xi.d3) (k % xi.d3) := by
  refine ⟨?_, ?_, ?_⟩
  · show sigmoid ((clsLogits d i xi).data bb c
        (k / (clsLogits d i xi).d3) (k % (clsLogits d i xi).d3)) = _
    rw [h3cls]
  · show (regDistLogits d i xi).data bb c
        (k / (regDistLogits d i xi).d3) (k % (regDistLogits d i xi).d3) = _
    rw [h3dist]
  · show (regLrtbLogits d i xi).data bb c
        (k / (regLrtbLogits d i xi).d3) (k % (regLrtbLogits d i xi).d3) = _
    rw [h3reg]

end Lemmas

/-- C6: the claim asserts that construction fails whenever the stride list
length differs from `num_layers`.  In the source the stride list is the
hardcoded `[8, 16, 32]` and `__init__` never compares its length with
`num_layers`: constructing with `num_layers = 2` (twelve head layers) succeeds
and yields a stride list of length 3 ≠ 2. -/
theorem C6_counterexample :
    (Detect.init 80 2 (some (List.replicate 12 (constModule 1))) true 16).map
        (fun d => d.stride.length) = some 3 ∧ (3 : Nat) ≠ 2 :=
  ⟨rfl, by decide⟩

/-- C6 (amended): construction performs no stride/num_layers validation at
all — the stride list is fixed at `[8, 16, 32]` regardless of `num_layers`,
and construction succeeds for every `num_layers` as long as `head_layers`
supplies the `6 * num_layers` modules the loop reads. -/
theorem C6_amended (nc nl : Nat) (hl : List TModule) (udfl : Bool) (rm : Nat)
    (h : 6 * nl ≤ hl.length) :
    ∃ d : Detect, Detect.init nc nl (some hl) udfl rm = some d ∧
      d.stride = [8, 16, 32] := by
  unfold Detect.init
  rw [Option.some_bind, if_pos (Or.inr h)]
  exact ⟨_, rfl, rfl⟩

/-- Witness for C6 (amended) at `num_layers = 2` with twelve modules. -/
theorem C6_amended_witness :
    ∃ d : Detect,
      Detect.init 80 2 (some (List.replicate 12 (constModule 1))) true 16 = some d ∧
        d.stride = [8, 16, 32] :=
  C6_amended 80 2 (List.replicate 12 (constModule 1)) true 16 (by simp)

/-- C7: the claim asserts that every `head_layers` length other than
`6 * num_layers` makes construction fail.  A `head_layers` of length 7 with
`num_layers = 1` (7 ≠ 6) is accepted: the loop only ever reads indices
`0..5`, so surplus modules are silently ignored. -/
theorem C7_counterexample :
    (Detect.init 80 1 (some (List.replicate 7 (constModule 1))) true 16).isSome
        = true ∧ (List.replicate 7 (constModule 1)).length ≠ 6 * 1 :=
  ⟨rfl, by simp⟩

/-- C7 (amended): construction with a supplied `head_layers` succeeds exactly
when it has at least `6 * num_layers` entries (fewer raises an out-of-range
`IndexError`; surplus entries are ignored), a missing `head_layers` is
rejected by the assert, and a successful construction assigns
`head_layers[6*i .. 6*i+5]` to the scale-`i` slots in the fixed order
stem, cls-feature, reg-feature, cls-projection, reg-distribution-projection,
reg-direct-projection. -/
theorem C7_amended (nc nl : Nat) (hl : List TModule) (udfl : Bool) (rm : Nat)
    (hnl : 0 < nl) :
    ((Detect.init nc nl (some hl) udfl rm).isSome = true ↔ 6 * nl ≤ hl.length)
    ∧ Detect.init nc nl none udfl rm = none
    ∧ ∀ d : Detect, Detect.init nc nl (some hl) udfl rm = some d →
        ∀ i, i < nl →
          d.stems.getD i default = hl.getD (6 * i) default
          ∧ d.cls_convs.getD i default = hl.getD (6 * i + 1) default
          ∧ d.reg_convs.getD i default = hl.getD (6 * i + 2) default
          ∧ d.cls_preds.getD i default = hl.getD (6 * i + 3) default
          ∧ d.reg_preds_dist.getD i default = hl.getD (6 * i + 4) default
          ∧ d.reg_preds.getD i default = hl.getD (6 * i + 5) default := by
  refine ⟨?_, rfl, ?_⟩
  · unfold Detect.init
    rw [Option.some_bind]
    by_cases h : 6 * nl ≤ hl.length
    · rw [if_pos (Or.inr h)]
      simpa using h
    · rw [if_neg (by push_neg; exact ⟨hnl, by omega⟩)]
      simp [h]
  · intro d hd i hi
    unfold Detect.init at hd
    rw [Option.some_bind] at hd
    split_ifs at hd with hcond
    injection hd with hd'
    subst hd'
    exact ⟨getD_map_range _ nl i hi _, getD_map_range _ nl i hi _,
      getD_map_range _ nl i hi _, getD_map_range _ nl i hi _,
      getD_map_range _ nl i hi _, getD_map_range _ nl i hi _⟩

/-- Witness for C7 (amended) at `num_layers = 1` with seven modules. -/
theorem C7_amended_witness :
    (((Detect.init 80 1 (some (List.replicate 7 (constModule 1))) true 16).isSome
        = true ↔ 6 * 1 ≤ (List.replicate 7 (constModule 1)).length)
      ∧ Detect.init 80 1 none true 16 = none
      ∧ ∀ d : Detect,
          Detect.init 80 1 (some (List.replicate 7 (constModule 1))) true 16
            = some d →
          ∀ i, i < 1 →
            d.stems.getD i default
                = (List.replicate 7 (constModule 1)).getD (6 * i) default
            ∧ d.cls_convs.getD i default
                = (List.replicate 7 (constModule 1)).getD (6 * i + 1) default
            ∧ d.reg_convs.getD i default
                = (List.replicate 7 (constModule 1)).getD (6 * i + 2) default
            ∧ d.cls_preds.getD i default
                = (List.replicate 7 (constModule 1)).getD (6 * i + 3) default
            ∧ d.reg_preds_dist.getD i default
                = (List.replicate 7 (constModule 1)).getD (6 * i + 4) default
            ∧ d.reg_preds.getD i default
                = (List.replicate 7 (constModule 1)).getD (6 * i + 5) default) :=
  C7_amended 80 1 (List.replicate 7 (constModule 1)) true 16 (by decide)

/-- C8: the claim asserts the distribution-form regression projection has
`4 * (reg_max + 1)` output channels for every `num_anchors`.  The source gives
it `4 * (reg_max + num_anchors)`: with `num_anchors = 2`, `reg_max = 16` the
built layer has `4 * 18 = 72` output channels, not `4 * 17 = 68`. -/
theorem C8_counterexample :
    ((build_effidehead_layer (fun _ => 32) 2 80 16).getD 4 default).outCh = 72
      ∧ (72 : Nat) ≠ 4 * (16 + 1) :=
  ⟨rfl, by decide⟩

/-- C8 (amended): in each of the three per-scale groups built by
`build_effidehead_layer`, the classification projection has
`num_classes * num_anchors` output channels, the distribution-form regression
projection has `4 * (reg_max + num_anchors)` output channels (which equals the
claimed `4 * (reg_max + 1)` exactly in the anchor-free case
`num_anchors = 1`), and the direct regression projection has
`4 * num_anchors` output channels. -/
theorem C8_amended (cl : Nat → Nat) (na nc rm : Nat) :
    ∀ i, i < 3 →
      ((build_effidehead_layer cl na nc rm).getD (6 * i + 3) default).outCh = nc * na
      ∧ ((build_effidehead_layer cl na nc rm).getD (6 * i + 4) default).outCh
          = 4 * (rm + na)
      ∧ ((build_effidehead_layer cl na nc rm).getD (6 * i + 5) default).outCh
          = 4 * na := by
  intro i hi
  interval_cases i <;> exact ⟨rfl, rfl, rfl⟩

/-- Witness for C8 (amended) in the anchor-free configuration, scale 0. -/
theorem C8_amended_witness :
    ((build_effidehead_layer (fun _ => 32) 1 80 16).getD 3 default).outCh = 80 * 1
    ∧ ((build_effidehead_layer (fun _ => 32) 1 80 16).getD 4 default).outCh
        = 4 * (16 + 1)
    ∧ ((build_effidehead_layer (fun _ => 32) 1 80 16).getD 5 default).outCh
        = 4 * 1 :=
  C8_amended (fun _ => 32) 1 80 16 0 (by decide)

/-- C9: one call to `initialize_biases` fills every classification-projection
bias entry with `-log((1-p)/p)` at `p = prior_prob = 0.01`, every bias entry of
both regression projections with `1.0`, zeroes every weight entry of all three
projection convolutions, and installs the `reg_max + 1`-point linear ramp
`0, 1, …, reg_max` (the evenly spaced discrete-expectation kernel, i.e. the
`i`-th entry equals `i`) as both `proj` and the projection convolution weight,
with both ramp parameters marked `requires_grad = False`. -/
theorem C9_initialize_biases (d : DetectParams) (hp : d.prior_prob = 1 / 100) :
    (∀ c ∈ (initialize_biases d).cls_preds,
        (∀ v ∈ c.bias, v = -Real.log ((1 - 1 / 100) / (1 / 100)))
        ∧ ∀ v ∈ c.weight, v = 0)
    ∧ (∀ c ∈ (initialize_biases d).reg_preds_dist,
        (∀ v ∈ c.bias, v = 1) ∧ ∀ v ∈ c.weight, v = 0)
    ∧ (∀ c ∈ (initialize_biases d).reg_preds,
        (∀ v ∈ c.bias, v = 1) ∧ ∀ v ∈ c.weight, v = 0)
    ∧ (initialize_biases d).proj.length = d.reg_max + 1
    ∧ (∀ i, i < d.reg_max + 1 → (initialize_biases d).proj.getD i 0 = (i : ℝ))
    ∧ (initialize_biases d).proj_requires_grad = false
    ∧ (initialize_biases d).proj_conv_weight = (initialize_biases d).proj
    ∧ (initialize_biases d).proj_conv_weight_requires_grad = false := by
  have hval : ∀ i, i < d.reg_max + 1 →
      (linspace 0 (d.reg_max : ℝ) (d.reg_max + 1)).getD i 0 = (i : ℝ) := by
    intro i hi
    have h1 : (linspace 0 (d.reg_max : ℝ) (d.reg_max + 1)).getD i 0
        = 0 + (i : ℝ) * ((d.reg_max : ℝ) - 0) / (((d.reg_max + 1 : Nat) : ℝ) - 1) := by
      unfold linspace
      exact getD_map_range _ _ _ hi _
    rw [h1]
    have h2 : (((d.reg_max + 1 : Nat) : ℝ) - 1) = (d.reg_max : ℝ) := by
      push_cast
      ring
    rw [h2, zero_add, sub_zero]
    rcases Nat.eq_zero_or_pos d.reg_max with h0 | h0
    · have hi0 : i = 0 := by omega
      subst hi0
      simp
    · have hne : ((d.reg_max : ℝ)) ≠ 0 := by
        exact_mod_cast Nat.pos_iff_ne_zero.mp h0
      rw [mul_div_assoc, div_self hne, mul_one]
  refine ⟨?_, ?_, ?_, ?_, hval, rfl, rfl, rfl⟩
  · intro c hc
    simp only [initialize_biases, List.mem_map] at hc
    obtain ⟨c0, _, rfl⟩ := hc
    constructor
    · intro v hv
      simp only [fillConst, List.mem_map] at hv
      obtain ⟨_, _, rfl⟩ := hv
      rw [hp]
    · intro v hv
      simp only [fillConst, List.mem_map] at hv
      obtain ⟨_, _, rfl⟩ := hv
      rfl
  · intro c hc
    simp only [initialize_biases, List.mem_map] at hc
    obtain ⟨c0, _, rfl⟩ := hc
    exact ⟨fun v hv => by
        simp only [fillConst, List.mem_map] at hv
        obtain ⟨_, _, rfl⟩ := hv
        rfl,
      fun v hv => by
        simp only [fillConst, List.mem_map] at hv
        obtain ⟨_, _, rfl⟩ := hv
        rfl⟩
  · intro c hc
    simp only [initialize_biases, List.mem_map] at hc
    obtain ⟨c0, _, rfl⟩ := hc
    exact ⟨fun v hv => by
        simp only [fillConst, List.mem_map] at hv
        obtain ⟨_, _, rfl⟩ := hv
        rfl,
      fun v hv => by
        simp only [fillConst, List.mem_map] at hv
        obtain ⟨_, _, rfl⟩ := hv
        rfl⟩
  · simp only [initialize_biases, linspace, List.length_map, List.length_range]

/-- Witness for C9 on concrete parameters. -/
theorem C9_witness :
    ((∀ c ∈ (initialize_biases testParams).cls_preds,
        (∀ v ∈ c.bias, v = -Real.log ((1 - 1 / 100) / (1 / 100)))
        ∧ ∀ v ∈ c.weight, v = 0)
      ∧ (∀ c ∈ (initialize_biases testParams).reg_preds_dist,
          (∀ v ∈ c.bias, v = 1) ∧ ∀ v ∈ c.weight, v = 0)
      ∧ (∀ c ∈ (initialize_biases testParams).reg_preds,
          (∀ v ∈ c.bias, v = 1) ∧ ∀ v ∈ c.weight, v = 0)
      ∧ (initialize_biases testParams).proj.length = testParams.reg_max + 1
      ∧ (∀ i, i < testParams.reg_max + 1 →
          (initialize_biases testParams).proj.getD i 0 = (i : ℝ))
      ∧ (initialize_biases testParams).proj_requires_grad = false
      ∧ (initialize_biases testParams).proj_conv_weight
          = (initialize_biases testParams).proj
      ∧ (initialize_biases testParams).proj_conv_weight_requires_grad = false) :=
  C9_initialize_biases testParams rfl

/-- C1: in inference mode the forward pass slices the flat anchor-point and
stride sequences with a running start index that begins at 0 and advances by
`h_i * w_i` after each scale — the loop's threaded start equals the closed-form
prefix sum `blockStart`, so the slice for scale `i` is the contiguous block
`[blockStart i, blockStart i + h_i*w_i)` of length exactly `h_i * w_i`; the
blocks are disjoint, in scale order, and cover indices 0 through
`sum (h_i * w_i)`, which is the full length of the generated anchor set. -/
theorem C1_running_slice (d : Detect) (x : List Tensor4) (hx : x.length = d.nl) :
    d.forwardInfer x
      = (generate_anchors (x.map fun t => (t.d2, t.d3)) d.stride
          d.grid_cell_offset).bind
          (fun p => (List.range d.nl).mapM fun i =>
            inferScale d p.1 p.2 i (blockStart x i) (x.getD i default))
    ∧ blockStart x 0 = 0
    ∧ (∀ i, i < d.nl → blockStart x (i + 1)
        = blockStart x i + (x.getD i default).d2 * (x.getD i default).d3)
    ∧ ∀ ap st,
        generate_anchors (x.map fun t => (t.d2, t.d3)) d.stride d.grid_cell_offset
          = some (ap, st) →
        ap.length = blockStart x d.nl ∧ st.length = blockStart x d.nl
        ∧ ∀ i, i < d.nl →
            ((ap.drop (blockStart x i)).take
                ((x.getD i default).d2 * (x.getD i default).d3)).length
              = (x.getD i default).d2 * (x.getD i default).d3 := by
  refine ⟨?_, rfl, ?_, ?_⟩
  · unfold Detect.forwardInfer
    cases hgen : generate_anchors (x.map fun t => (t.d2, t.d3)) d.stride
        d.grid_cell_offset with
    | none => rfl
    | some p =>
      obtain ⟨ap, st⟩ := p
      show inferLoop d ap st x (List.range d.nl) 0
        = (List.range d.nl).mapM fun i =>
            inferScale d ap st i (blockStart x i) (x.getD i default)
      rw [List.range_eq_range']
      exact inferLoop_eq_mapM d ap st x d.nl 0 (by omega)
  · intro i hi
    exact blockStart_succ x (by omega)
  · intro ap st hgen
    obtain ⟨h1, _, hap, hst⟩ := generate_anchors_eq_some hgen
    refine ⟨?_, ?_, ?_⟩
    · rw [hap, List.length_flatten, ap_block_lengths, ← blockStart_length, hx]
    · rw [hst, List.length_flatten, st_block_lengths x d.stride h1,
        ← blockStart_length, hx]
    · intro i hi
      have hi' : i < x.length := by omega
      rw [hap, ap_slice x d.grid_cell_offset hi', length_anchorsForScale]

/-- Witness for C1 on the three-scale 4×4 / 2×2 / 1×1 input. -/
theorem C1_witness :
    (testDetect 1 16).forwardInfer testInput
      = (generate_anchors (testInput.map fun t => (t.d2, t.d3))
          (testDetect 1 16).stride (testDetect 1 16).grid_cell_offset).bind
          (fun p => (List.range (testDetect 1 16).nl).mapM fun i =>
            inferScale (testDetect 1 16) p.1 p.2 i (blockStart testInput i)
              (testInput.getD i default)) :=
  (C1_running_slice (testDetect 1 16) testInput rfl).1

/-- C2: the per-scale record layout holds only for batch size 1.  At batch
size 2 (three 4×4 / 2×2 / 1×1 feature maps) the inference path fails instead of
returning records of shape `(2, h, w, 4+1+nc)`: `reg_output.reshape(-1, 4)`
has `2*h*w` rows while the anchor slice has `h*w` points, so the `dist2bbox`
pairing contract (N distance rows with N matching anchor points, §4.2) is
violated — a broadcasting shape error, modelled as `none`. -/
theorem C2_batch2_failure :
    (testDetect 1 16).forward false
      [inputT 2 8 4 4, inputT 2 8 2 2, inputT 2 8 1 1] = none := rfl

/-- C10: in training mode `forward` overwrites each slot `i < nl` of the
caller's feature-map list with the stem output for scale `i` (slots past `nl`
and the list length are untouched) and returns that same mutated list as the
first element of its output tuple — modelled by `forward` returning the
caller-visible post-call list, which in training mode is `mutatedList` and is
also the list inside the returned tuple; in inference mode the stem output
goes to a local and the caller's list is returned unchanged. -/
theorem C10_frame_effect (d : Detect) (x : List Tensor4) (hx : d.nl ≤ x.length) :
    (∃ c r l, d.forward true x
        = some (mutatedList d x, ForwardOut.train (mutatedList d x) c r l))
    ∧ (∀ i, i < d.nl → (mutatedList d x).get? i
        = some ((d.stems.getD i default).f (x.getD i default)))
    ∧ (∀ i, d.nl ≤ i → (mutatedList d x).get? i = x.get? i)
    ∧ (mutatedList d x).length = x.length
    ∧ ((d.forward false x).elim True fun r => r.1 = x) := by
  refine ⟨?_, ?_, ?_, ?_, ?_⟩
  · have h : d.forwardTrain x = some (mutatedList d x,
        catAxis1 (((List.range d.nl).map fun i =>
          trainScale d i (x.getD i default)).map fun p => p.2.1),
        catAxis1 (((List.range d.nl).map fun i =>
          trainScale d i (x.getD i default)).map fun p => p.2.2.1),
        catAxis1 (((List.range d.nl).map fun i =>
          trainScale d i (x.getD i default)).map fun p => p.2.2.2)) := by
      unfold Detect.forwardTrain
      rw [if_pos hx]
    refine ⟨catAxis1 (((List.range d.nl).map fun i =>
        trainScale d i (x.getD i default)).map fun p => p.2.1),
      catAxis1 (((List.range d.nl).map fun i =>
        trainScale d i (x.getD i default)).map fun p => p.2.2.1),
      catAxis1 (((List.range d.nl).map fun i =>
        trainScale d i (x.getD i default)).map fun p => p.2.2.2), ?_⟩
    unfold Detect.forward
    rw [if_pos rfl, h]
    rfl
  · intro i hi
    unfold mutatedList
    rw [List.get?_eq_getElem?,
      List.getElem?_append_left (by rw [List.length_map, List.length_range]; exact hi),
      List.getElem?_map, List.getElem?_range hi]
    rfl
  · intro i hi
    unfold mutatedList
    rw [List.get?_eq_getElem?, List.get?_eq_getElem?,
      List.getElem?_append_right (by rw [List.length_map, List.length_range]; exact hi),
      List.length_map, List.length_range, List.getElem?_drop]
    have harith : d.nl + (i - d.nl) = i := by omega
    rw [harith]
  · unfold mutatedList
    rw [List.length_append, List.length_map, List.length_range, List.length_drop]
    omega
  · unfold Detect.forward
    rw [if_neg (by simp)]
    cases h : d.forwardInfer x with
    | none => exact trivial
    | some outs => rfl

/-- Witness for C10 on the three-scale input. -/
theorem C10_witness :
    (∃ c r l, (testDetect 1 16).forward true testInput
        = some (mutatedList (testDetect 1 16) testInput,
            ForwardOut.train (mutatedList (testDetect 1 16) testInput) c r l))
    ∧ (((testDetect 1 16).forward false testInput).elim True
        fun r => r.1 = testInput) :=
  ⟨(C10_frame_effect (testDetect 1 16) testInput (by decide)).1,
    (C10_frame_effect (testDetect 1 16) testInput (by decide)).2.2.2.2⟩

/-- C3: in training mode, each scale's spatial dimensions are flattened and
permuted to `(batch, anchors, channels)` (this is `trainScale`, whose per-scale
outputs the blocks below are), and the scales are concatenated along the
anchor axis, giving three tensors of shapes `(b, total, num_classes)`,
`(b, total, 4*(reg_max+1))` and `(b, total, 4)` with
`total = sum of h_i * w_i`, the per-scale blocks sitting at the prefix-sum
offsets `blockStart` in scale-major order — the same order as the anchor
grid. -/
theorem C3_training_concat (d : Detect) (x : List Tensor4) (b : Nat)
    (hx : x.length = d.nl) (hnl : 0 < d.nl)
    (hb : ∀ t ∈ x, t.d0 = b)
    (hstem : ∀ i, i < d.nl → (d.stems.getD i default).ShapeOk)
    (hclsc : ∀ i, i < d.nl → (d.cls_convs.getD i default).ShapeOk)
    (hregc : ∀ i, i < d.nl → (d.reg_convs.getD i default).ShapeOk)
    (hcls : ∀ i, i < d.nl → (d.cls_preds.getD i default).ShapeOk
        ∧ (d.cls_preds.getD i default).outCh = d.nc)
    (hdist : ∀ i, i < d.nl → (d.reg_preds_dist.getD i default).ShapeOk
        ∧ (d.reg_preds_dist.getD i default).outCh = 4 * (d.reg_max + 1))
    (hreg : ∀ i, i < d.nl → (d.reg_preds.getD i default).ShapeOk
        ∧ (d.reg_preds.getD i default).outCh = 4) :
    ∃ xs cls distri lrtb,
      d.forwardTrain x = some (xs, cls, distri, lrtb)
      ∧ cls.d0 = b ∧ cls.d1 = blockStart x d.nl ∧ cls.d2 = d.nc
      ∧ distri.d0 = b ∧ distri.d1 = blockStart x d.nl
        ∧ distri.d2 = 4 * (d.reg_max + 1)
      ∧ lrtb.d0 = b ∧ lrtb.d1 = blockStart x d.nl ∧ lrtb.d2 = 4
      ∧ blockStart x d.nl = (x.map fun t => t.d2 * t.d3).sum
      ∧ ∀ i, i < d.nl → ∀ k,
          k < (x.getD i default).d2 * (x.getD i default).d3 → ∀ bb c,
          cls.data bb (blockStart x i + k) c
              = (trainScale d i (x.getD i default)).2.1.data bb k c
          ∧ distri.data bb (blockStart x i + k) c
              = (trainScale d i (x.getD i default)).2.2.1.data bb k c
          ∧ lrtb.data bb (blockStart x i + k) c
              = (trainScale d i (x.getD i default)).2.2.2.data bb k c := by
  have hxle : d.nl ≤ x.length := by omega
  have hdims := fun (i : Nat) (hi : i < d.nl) => trainScale_dims d i (x.getD i default)
    (hstem i hi) (hclsc i hi) (hregc i hi) (hcls i hi).1 (hdist i hi).1 (hreg i hi).1
  have hxi0 : ∀ i, i < d.nl → (x.getD i default).d0 = b := by
    intro i hi
    have hi' : i < x.length := by omega
    rw [getD_eq_getElem x default hi']
    exact hb _ (List.getElem_mem hi')
  have hccls := catAxis1_of_scales d x b d.nc hnl hxle
    (fun i => (trainScale d i (x.getD i default)).2.1)
    (fun i hi => ((hdims i hi).1.1).trans (hxi0 i hi))
    (fun i hi => (hdims i hi).1.2.1)
    (fun i hi => ((hdims i hi).1.2.2).trans (hcls i hi).2)
  have hcdist := catAxis1_of_scales d x b (4 * (d.reg_max + 1)) hnl hxle
    (fun i => (trainScale d i (x.getD i default)).2.2.1)
    (fun i hi => ((hdims i hi).2.1.1).trans (hxi0 i hi))
    (fun i hi => (hdims i hi).2.1.2.1)
    (fun i hi => ((hdims i hi).2.1.2.2).trans (hdist i hi).2)
  have hclrtb := catAxis1_of_scales d x b 4 hnl hxle
    (fun i => (trainScale d i (x.getD i default)).2.2.2)
    (fun i hi => ((hdims i hi).2.2.1).trans (hxi0 i hi))
    (fun i hi => (hdims i hi).2.2.2.1)
    (fun i hi => ((hdims i hi).2.2.2.2).trans (hreg i hi).2)
  refine ⟨mutatedList d x, _, _, _, forwardTrain_eq d x hxle,
    hccls.1, hccls.2.1, hccls.2.2.1,
    hcdist.1, hcdist.2.1, hcdist.2.2.1,
    hclrtb.1, hclrtb.2.1, hclrtb.2.2.1, ?_, ?_⟩
  · rw [← hx, blockStart_length]
  · intro i hi k hk bb c
    exact ⟨hccls.2.2.2 i hi k hk bb c, hcdist.2.2.2 i hi k hk bb c,
      hclrtb.2.2.2 i hi k hk bb c⟩

/-- Witness for C3: three scales 4×4, 2×2, 1×1 give 21 anchors in all three
concatenated tensors. -/
theorem C3_witness :
    (∃ xs cls distri lrtb,
      (testDetect 1 16).forwardTrain testInput = some (xs, cls, distri, lrtb)
      ∧ cls.d0 = 1 ∧ cls.d1 = blockStart testInput (testDetect 1 16).nl
        ∧ cls.d2 = (testDetect 1 16).nc
      ∧ distri.d0 = 1 ∧ distri.d1 = blockStart testInput (testDetect 1 16).nl
        ∧ distri.d2 = 4 * ((testDetect 1 16).reg_max + 1)
      ∧ lrtb.d0 = 1 ∧ lrtb.d1 = blockStart testInput (testDetect 1 16).nl
        ∧ lrtb.d2 = 4
      ∧ blockStart testInput (testDetect 1 16).nl
          = (testInput.map fun t => t.d2 * t.d3).sum
      ∧ ∀ i, i < (testDetect 1 16).nl → ∀ k,
          k < (testInput.getD i default).d2 * (testInput.getD i default).d3 →
          ∀ bb c,
          cls.data bb (blockStart testInput i + k) c
              = (trainScale (testDetect 1 16) i
                  (testInput.getD i default)).2.1.data bb k c
          ∧ distri.data bb (blockStart testInput i + k) c
              = (trainScale (testDetect 1 16) i
                  (testInput.getD i default)).2.2.1.data bb k c
          ∧ lrtb.data bb (blockStart testInput i + k) c
              = (trainScale (testDetect 1 16) i
                  (testInput.getD i default)).2.2.2.data bb k c)
    ∧ blockStart testInput 3 = 21 :=
  ⟨C3_training_concat (testDetect 1 16) testInput 1 rfl (by decide)
      (by intro t ht; fin_cases ht <;> rfl)
      (by intro i hi; have hi3 : i < 3 := hi; interval_cases i <;>
        exact constModule_shapeOk 8)
      (by intro i hi; have hi3 : i < 3 := hi; interval_cases i <;>
        exact constModule_shapeOk 8)
      (by intro i hi; have hi3 : i < 3 := hi; interval_cases i <;>
        exact constModule_shapeOk 8)
      (by intro i hi; have hi3 : i < 3 := hi; interval_cases i <;>
        exact ⟨constModule_shapeOk 1, rfl⟩)
      (by intro i hi; have hi3 : i < 3 := hi; interval_cases i <;>
        exact ⟨constModule_shapeOk (4 * (16 + 1)), rfl⟩)
      (by intro i hi; have hi3 : i < 3 := hi; interval_cases i <;>
        exact ⟨constModule_shapeOk 4, rfl⟩),
    by decide⟩

/-- C4: after distance-to-box decoding, every coordinate of every decoded box
is multiplied by the stride entry of that box's own anchor: the stride slice
for scale `i` is that scale's stride repeated `h_i*w_i` times
(spec-modelled anchor generator), the code's single `scale_stride[0]` multiply
therefore equals multiplication by the slice entry at the box's own row-major
anchor index, and decoding the same regression output under two stride
sequences yields boxes whose coordinates scale linearly with the stride. -/
theorem C4_stride_scaling (d : Detect) (x : List Tensor4) (hx : x.length = d.nl) :
    (∀ ap st, generate_anchors (x.map fun t => (t.d2, t.d3)) d.stride
        d.grid_cell_offset = some (ap, st) →
      ∀ i, i < d.nl →
        (st.drop (blockStart x i)).take
            ((x.getD i default).d2 * (x.getD i default).d3)
          = List.replicate ((x.getD i default).d2 * (x.getD i default).d3)
              (d.stride.getD i 0))
    ∧ (∀ ap st i start xi out s,
        inferScale d ap st i start xi = some out →
        (st.drop start).take (xi.d2 * xi.d3)
          = List.replicate (xi.d2 * xi.d3) s →
        ∃ pred, dist2bbox ((regLrtbLogits d i xi).permute0231.reshapeNeg1x4)
            ((ap.drop start).take (xi.d2 * xi.d3)) = some pred
          ∧ ∀ bb r c j, j < 4 → r < xi.d2 → c < xi.d3 →
              out.data bb r c j
                  = (pred.reshapeTo4 xi.d0 xi.d2 xi.d3).data bb r c j
                    * (((st.drop start).take (xi.d2 * xi.d3)).getD
                        (r * xi.d3 + c) 0)
              ∧ (((st.drop start).take (xi.d2 * xi.d3)).getD (r * xi.d3 + c) 0)
                  = s)
    ∧ (∀ ap st st' i start xi out out' s s',
        inferScale d ap st i start xi = some out →
        inferScale d ap st' i start xi = some out' →
        (st.drop start).take (xi.d2 * xi.d3)
          = List.replicate (xi.d2 * xi.d3) s →
        (st'.drop start).take (xi.d2 * xi.d3)
          = List.replicate (xi.d2 * xi.d3) s' →
        ∀ bb r c j, j < 4 → r < xi.d2 → c < xi.d3 →
          out'.data bb r c j * s = out.data bb r c j * s') := by
  refine ⟨?_, ?_, ?_⟩
  · intro ap st hgen i hi
    obtain ⟨h1, _, _, hst⟩ := generate_anchors_eq_some hgen
    have hi' : i < x.length := by omega
    have hlen : x.length = d.stride.length := by
      rw [List.length_map] at h1; exact h1
    rw [hst]
    exact st_slice x d.stride hi' hlen
  · intro ap st i start xi out s hout hslice
    rw [inferScale_eq] at hout
    cases hdist : dist2bbox ((regLrtbLogits d i xi).permute0231.reshapeNeg1x4)
        ((ap.drop start).take (xi.d2 * xi.d3)) with
    | none => rw [hdist] at hout; simp at hout
    | some pred =>
      rw [hdist] at hout
      simp only [Option.map_some'] at hout
      injection hout with hout'
      refine ⟨pred, rfl, ?_⟩
      intro bb r c j hj hr hc
      have hhw : 0 < xi.d2 * xi.d3 := Nat.mul_pos (by omega) (by omega)
      constructor
      · rw [← hout', catLast_three_box _ _ _ rfl hj]
        show (pred.reshapeTo4 xi.d0 xi.d2 xi.d3).data bb r c j
            * (((st.drop start).take (xi.d2 * xi.d3)).headD 0) = _
        rw [hslice, headD_replicate _ _ _ hhw,
          getD_replicate _ _ _ (rowmajor_lt hr hc)]
      · rw [hslice, getD_replicate _ _ _ (rowmajor_lt hr hc)]
  · intro ap st st' i start xi out out' s s' hout hout' hsl hsl' bb r c j hj hr hc
    rw [inferScale_eq] at hout hout'
    cases hdist : dist2bbox ((regLrtbLogits d i xi).permute0231.reshapeNeg1x4)
        ((ap.drop start).take (xi.d2 * xi.d3)) with
    | none => rw [hdist] at hout; simp at hout
    | some pred =>
      rw [hdist] at hout hout'
      simp only [Option.map_some'] at hout hout'
      injection hout with h1
      injection hout' with h2
      have hhw : 0 < xi.d2 * xi.d3 := Nat.mul_pos (by omega) (by omega)
      rw [← h1, ← h2, catLast_three_box _ _ _ rfl hj,
        catLast_three_box _ _ _ rfl hj]
      show ((pred.reshapeTo4 xi.d0 xi.d2 xi.d3).data bb r c j
          * (((st'.drop start).take (xi.d2 * xi.d3)).headD 0)) * s
        = ((pred.reshapeTo4 xi.d0 xi.d2 xi.d3).data bb r c j
          * (((st.drop start).take (xi.d2 * xi.d3)).headD 0)) * s'
      rw [hsl, hsl', headD_replicate _ _ _ hhw, headD_replicate _ _ _ hhw]
      ring

/-- Witness for C4 on the concrete three-scale head and input. -/
theorem C4_witness :
    (∀ ap st, generate_anchors (testInput.map fun t => (t.d2, t.d3))
        (testDetect 1 16).stride (testDetect 1 16).grid_cell_offset
        = some (ap, st) →
      ∀ i, i < (testDetect 1 16).nl →
        (st.drop (blockStart testInput i)).take
            ((testInput.getD i default).d2 * (testInput.getD i default).d3)
          = List.replicate
              ((testInput.getD i default).d2 * (testInput.getD i default).d3)
              ((testDetect 1 16).stride.getD i 0))
    ∧ (∀ ap st i start xi out s,
        inferScale (testDetect 1 16) ap st i start xi = some out →
        (st.drop start).take (xi.d2 * xi.d3)
          = List.replicate (xi.d2 * xi.d3) s →
        ∃ pred, dist2bbox
            ((regLrtbLogits (testDetect 1 16) i xi).permute0231.reshapeNeg1x4)
            ((ap.drop start).take (xi.d2 * xi.d3)) = some pred
          ∧ ∀ bb r c j, j < 4 → r < xi.d2 → c < xi.d3 →
              out.data bb r c j
                  = (pred.reshapeTo4 xi.d0 xi.d2 xi.d3).data bb r c j
                    * (((st.drop start).take (xi.d2 * xi.d3)).getD
                        (r * xi.d3 + c) 0)
              ∧ (((st.drop start).take (xi.d2 * xi.d3)).getD (r * xi.d3 + c) 0)
                  = s)
    ∧ (∀ ap st st' i start xi out out' s s',
        inferScale (testDetect 1 16) ap st i start xi = some out →
        inferScale (testDetect 1 16) ap st' i start xi = some out' →
        (st.drop start).take (xi.d2 * xi.d3)
          = List.replicate (xi.d2 * xi.d3) s →
        (st'.drop start).take (xi.d2 * xi.d3)
          = List.replicate (xi.d2 * xi.d3) s' →
        ∀ bb r c j, j < 4 → r < xi.d2 → c < xi.d3 →
          out'.data bb r c j * s = out.data bb r c j * s') :=
  C4_stride_scaling (testDetect 1 16) testInput rfl

/-- C5: in both modes the classification output `forward` returns has the
sigmoid applied (training: every entry of the concatenated classification
tensor is the sigmoid of the corresponding raw logit, hence in `[0, 1]`;
inference: every classification channel `5 + c'` of every per-scale record is
the sigmoid of the raw logit, hence in `[0, 1]`), while the regression outputs
carry the raw projection values with no activation. -/
theorem C5_sigmoid_contract (d : Detect) (x : List Tensor4) (b : Nat)
    (hx : x.length = d.nl) (hnl : 0 < d.nl)
    (hb : ∀ t ∈ x, t.d0 = b)
    (hstem : ∀ i, i < d.nl → (d.stems.getD i default).ShapeOk)
    (hclsc : ∀ i, i < d.nl → (d.cls_convs.getD i default).ShapeOk)
    (hregc : ∀ i, i < d.nl → (d.reg_convs.getD i default).ShapeOk)
    (hcls : ∀ i, i < d.nl → (d.cls_preds.getD i default).ShapeOk
        ∧ (d.cls_preds.getD i default).outCh = d.nc)
    (hdist : ∀ i, i < d.nl → (d.reg_preds_dist.getD i default).ShapeOk
        ∧ (d.reg_preds_dist.getD i default).outCh = 4 * (d.reg_max + 1))
    (hreg : ∀ i, i < d.nl → (d.reg_preds.getD i default).ShapeOk
        ∧ (d.reg_preds.getD i default).outCh = 4) :
    (∀ xs cls distri lrtb, d.forwardTrain x = some (xs, cls, distri, lrtb) →
      ∀ i, i < d.nl → ∀ k,
        k < (x.getD i default).d2 * (x.getD i default).d3 → ∀ bb c,
        cls.data bb (blockStart x i + k) c
            = sigmoid ((clsLogits d i (x.getD i default)).data bb c
                (k / (x.getD i default).d3) (k % (x.getD i default).d3))
        ∧ 0 ≤ cls.data bb (blockStart x i + k) c
        ∧ cls.data bb (blockStart x i + k) c ≤ 1
        ∧ distri.data bb (blockStart x i + k) c
            = (regDistLogits d i (x.getD i default)).data bb c
                (k / (x.getD i default).d3) (k % (x.getD i default).d3)
        ∧ lrtb.data bb (blockStart x i + k) c
            = (regLrtbLogits d i (x.getD i default)).data bb c
                (k / (x.getD i default).d3) (k % (x.getD i default).d3))
    ∧ (∀ outs, d.forwardInfer x = some outs →
        ∀ i, i < d.nl → ∀ bb r c cp, cp < d.nc →
          (outs.getD i default).data bb r c (5 + cp)
              = sigmoid ((clsLogits d i (x.getD i default)).data bb cp r c)
          ∧ 0 ≤ (outs.getD i default).data bb r c (5 + cp)
          ∧ (outs.getD i default).data bb r c (5 + cp) ≤ 1) := by
  have hxle : d.nl ≤ x.length := by omega
  have hdims := fun (i : Nat) (hi : i < d.nl) => trainScale_dims d i (x.getD i default)
    (hstem i hi) (hclsc i hi) (hregc i hi) (hcls i hi).1 (hdist i hi).1 (hreg i hi).1
  have hxi0 : ∀ i, i < d.nl → (x.getD i default).d0 = b := by
    intro i hi
    have hi' : i < x.length := by omega
    rw [getD_eq_getElem x default hi']
    exact hb _ (List.getElem_mem hi')
  have hd3 : ∀ i, i < d.nl →
      (clsLogits d i (x.getD i default)).d3 = (x.getD i default).d3
      ∧ (regDistLogits d i (x.getD i default)).d3 = (x.getD i default).d3
      ∧ (regLrtbLogits d i (x.getD i default)).d3 = (x.getD i default).d3 := by
    intro i hi
    obtain ⟨_, _, _, s3⟩ := hstem i hi (x.getD i default)
    obtain ⟨_, _, _, c3⟩ := hclsc i hi ((d.stems.getD i default).f (x.getD i default))
    obtain ⟨_, _, _, p3⟩ := (hcls i hi).1 ((d.cls_convs.getD i default).f
      ((d.stems.getD i default).f (x.getD i default)))
    obtain ⟨_, _, _, r3⟩ := hregc i hi ((d.stems.getD i default).f (x.getD i default))
    obtain ⟨_, _, _, q3⟩ := (hdist i hi).1 ((d.reg_convs.getD i default).f
      ((d.stems.getD i default).f (x.getD i default)))
    obtain ⟨_, _, _, u3⟩ := (hreg i hi).1 ((d.reg_convs.getD i default).f
      ((d.stems.getD i default).f (x.getD i default)))
    exact ⟨p3.trans (c3.trans s3), q3.trans (r3.trans s3), u3.trans (r3.trans s3)⟩
  constructor
  · intro xs cls distri lrtb htr i hi k hk bb c
    rw [forwardTrain_eq d x hxle] at htr
    injection htr with htup
    have hcls' : cls = catAxis1 ((List.range d.nl).map fun i =>
        (trainScale d i (x.getD i default)).2.1) :=
      (congrArg (fun t : List Tensor4 × Tensor3 × Tensor3 × Tensor3 => t.2.1)
        htup).symm
    have hdist' : distri = catAxis1 ((List.range d.nl).map fun i =>
        (trainScale d i (x.getD i default)).2.2.1) :=
      (congrArg (fun t : List Tensor4 × Tensor3 × Tensor3 × Tensor3 => t.2.2.1)
        htup).symm
    have hlrtb' : lrtb = catAxis1 ((List.range d.nl).map fun i =>
        (trainScale d i (x.getD i default)).2.2.2) :=
      (congrArg (fun t : List Tensor4 × Tensor3 × Tensor3 × Tensor3 => t.2.2.2)
        htup).symm
    subst hcls' hdist' hlrtb'
    have hccls := catAxis1_of_scales d x b d.nc hnl hxle
      (fun i => (trainScale d i (x.getD i default)).2.1)
      (fun i hi => ((hdims i hi).1.1).trans (hxi0 i hi))
      (fun i hi => (hdims i hi).1.2.1)
      (fun i hi => ((hdims i hi).1.2.2).trans (hcls i hi).2)
    have hcdist := catAxis1_of_scales d x b (4 * (d.reg_max + 1)) hnl hxle
      (fun i => (trainScale d i (x.getD i default)).2.2.1)
      (fun i hi => ((hdims i hi).2.1.1).trans (hxi0 i hi))
      (fun i hi => (hdims i hi).2.1.2.1)
      (fun i hi => ((hdims i hi).2.1.2.2).trans (hdist i hi).2)
    have hclrtb := catAxis1_of_scales d x b 4 hnl hxle
      (fun i => (trainScale d i (x.getD i default)).2.2.2)
      (fun i hi => ((hdims i hi).2.2.1).trans (hxi0 i hi))
      (fun i hi => (hdims i hi).2.2.2.1)
      (fun i hi => ((hdims i hi).2.2.2.2).trans (hreg i hi).2)
    have hvals := trainScale_data d i (x.getD i default)
      (hd3 i hi).1 (hd3 i hi).2.1 (hd3 i hi).2.2 bb k c
    have hecls := (hccls.2.2.2 i hi k hk bb c).trans hvals.1
    refine ⟨hecls, ?_, ?_,
      (hcdist.2.2.2 i hi k hk bb c).trans hvals.2.1,
      (hclrtb.2.2.2 i hi k hk bb c).trans hvals.2.2⟩
    · rw [hecls]
      exact (sigmoid_mem_Icc _).1
    · rw [hecls]
      exact (sigmoid_mem_Icc _).2
  · intro outs hinf i hi bb r c cp hcp
    unfold Detect.forwardInfer at hinf
    cases hgen : generate_anchors (x.map fun t => (t.d2, t.d3)) d.stride
        d.grid_cell_offset with
    | none =>
      rw [hgen] at hinf
      simp at hinf
    | some p =>
      obtain ⟨ap, st⟩ := p
      rw [hgen] at hinf
      simp only [Option.bind_eq_bind, Option.some_bind] at hinf
      have hm := inferLoop_eq_mapM d ap st x d.nl 0 (by omega)
      rw [blockStart_zero] at hm
      rw [List.range_eq_range', hm] at hinf
      obtain ⟨_, hall⟩ := mapM_eq_some _ _ _ hinf
      have hfi := hall i (by rw [List.length_range']; exact hi) 0 default
      rw [getD_range' hi] at hfi
      rw [inferScale_eq] at hfi
      cases hdd : dist2bbox
          ((regLrtbLogits d i (x.getD i default)).permute0231.reshapeNeg1x4)
          ((ap.drop (blockStart x i)).take
            ((x.getD i default).d2 * (x.getD i default).d3)) with
      | none => rw [hdd] at hfi; simp at hfi
      | some pred =>
        rw [hdd] at hfi
        simp only [Option.map_some'] at hfi
        injection hfi with hout
        have hd1 : (clsLogits d i (x.getD i default)).d1 = d.nc := by
          obtain ⟨_, p1, _, _⟩ := (hcls i hi).1 ((d.cls_convs.getD i default).f
            ((d.stems.getD i default).f (x.getD i default)))
          exact p1.trans (hcls i hi).2
        have hcp' : cp < (((clsLogits d i (x.getD i default)).mapData
            sigmoid).permute0231).d3 := by
          show cp < (clsLogits d i (x.getD i default)).d1
          rw [hd1]
          exact hcp
        have hecls : (outs.getD i default).data bb r c (5 + cp)
            = sigmoid ((clsLogits d i (x.getD i default)).data bb cp r c) := by
          rw [← hout, catLast_three_cls _ _ _ rfl rfl hcp']
          rfl
        refine ⟨hecls, ?_, ?_⟩
        · rw [hecls]
          exact (sigmoid_mem_Icc _).1
        · rw [hecls]
          exact (sigmoid_mem_Icc _).2

/-- Witness for C5 on the concrete three-scale head and input. -/
theorem C5_witness :
    (∀ xs cls distri lrtb,
      (testDetect 1 16).forwardTrain testInput = some (xs, cls, distri, lrtb) →
      ∀ i, i < (testDetect 1 16).nl → ∀ k,
        k < (testInput.getD i default).d2 * (testInput.getD i default).d3 →
        ∀ bb c,
        cls.data bb (blockStart testInput i + k) c
            = sigmoid ((clsLogits (testDetect 1 16) i
                (testInput.getD i default)).data bb c
                (k / (testInput.getD i default).d3)
                (k % (testInput.getD i default).d3))
        ∧ 0 ≤ cls.data bb (blockStart testInput i + k) c
        ∧ cls.data bb (blockStart testInput i + k) c ≤ 1
        ∧ distri.data bb (blockStart testInput i + k) c
            = (regDistLogits (testDetect 1 16) i
                (testInput.getD i default)).data bb c
                (k / (testInput.getD i default).d3)
                (k % (testInput.getD i default).d3)
        ∧ lrtb.data bb (blockStart testInput i + k) c
            = (regLrtbLogits (testDetect 1 16) i
                (testInput.getD i default)).data bb c
                (k / (testInput.getD i default).d3)
                (k % (testInput.getD i default).d3))
    ∧ (∀ outs, (testDetect 1 16).forwardInfer testInput = some outs →
        ∀ i, i < (testDetect 1 16).nl → ∀ bb r c cp, cp < (testDetect 1 16).nc →
          (outs.getD i default).data bb r c (5 + cp)
              = sigmoid ((clsLogits (testDetect 1 16) i
                  (testInput.getD i default)).data bb cp r c)
          ∧ 0 ≤ (outs.getD i default).data bb r c (5 + cp)
          ∧ (outs.getD i default).data bb r c (5 + cp) ≤ 1) :=
  C5_sigmoid_contract (testDetect 1 16) testInput 1 rfl (by decide)
    (by intro t ht; fin_cases ht <;> rfl)
    (by intro i hi; have hi3 : i < 3 := hi; interval_cases i <;>
      exact constModule_shapeOk 8)
    (by intro i hi; have hi3 : i < 3 := hi; interval_cases i <;>
      exact constModule_shapeOk 8)
    (by intro i hi; have hi3 : i < 3 := hi; interval_cases i <;>
      exact constModule_shapeOk 8)
    (by intro i hi; have hi3 : i < 3 := hi; interval_cases i <;>
      exact ⟨constModule_shapeOk 1, rfl⟩)
    (by intro i hi; have hi3 : i < 3 := hi; interval_cases i <;>
      exact ⟨constModule_shapeOk (4 * (16 + 1)), rfl⟩)
    (by intro i hi; have hi3 : i < 3 := hi; interval_cases i <;>
      exact ⟨constModule_shapeOk 4, rfl⟩)

end EffiDeHead
